import Mathlib

/-! SerProHDLC: the HDLC-style framer of arduino-serpro

A shallow embedding of `src/SerProHDLC.h` and theorems about it.

Conventions of the embedding:
* a byte (`uint8_t`, `unsigned char`) is a natural number below 256; bytes are
  handed to the functions already reduced, and the places where the C++ code can
  overflow a machine integer carry an explicit `%`;
* the static members of the class template become the fields of `State`;
* `Serial::write` / `Serial::flush` append to the log `State.serial`;
* `Implementation::processPacket(ptr, len)` appends the `len` bytes found at
  `ptr`, together with `len`, to the log `State.handled`;
* the CRC class of `crc16.h` is a parameter, `CRCTYPE`;
* the 16-bit load `*((crc_t*)&pBuf[pBufPtr-2])` is little-endian, as on the AVR and as
  the transmitter writes the CRC (low byte first).
-/

namespace SerProHDLC

set_option maxRecDepth 100000

/-! ## Collaborators -/

/-- One call made to the transport `Serial`. -/
inductive SerialOp where
  | write (b : Nat)
  | flush
  deriving DecidableEq

/-- Modelled from the spec: the class `CRC16_rfc1549` of `crc16.h`, which is not among
the sources. The spec describes it as an incremental CRC16 accumulator with `reset()`,
`update(byte)` and `get()` returning a 16-bit value, which carries no state across a
`reset()`. `σ` is the internal state of one accumulator object, `reset` the state that
`reset()` installs. -/
structure CRCTYPE where
  σ : Type
  reset : σ
  update : σ → Nat → σ
  get : σ → Nat

/-- The value `get()` returns, as the 16-bit `crc_t`. -/
def CRCTYPE.get16 (E : CRCTYPE) (s : E.σ) : Nat := E.get s % 65536

/-- CRC16 of a byte sequence: `reset()`, one `update` per byte, then `get()`. -/
def crc16 (E : CRCTYPE) (bs : List Nat) : Nat := E.get16 (bs.foldl E.update E.reset)

/-- The template argument `Config`. -/
structure Config where
  maxPacketSize : Nat
  stationId : Nat

/-! ## Storage class of the buffer index -/

/-- Source: `number_of_bytes<number>::bytes = number/256 > 1 ? 2 : 1`. -/
def number_of_bytes (number : Nat) : Nat := if number / 256 > 1 then 2 else 1

/-- The type `best_storage_class<bytes>::type`, given by the number of its values:
`uint8_t` for 1 and `uint16_t` for 2, the two specialisations there are. -/
def best_storage_class (bytes : Nat) : Nat := if bytes = 1 then 256 else 65536

/-- The index type
`best_storage_class< number_of_bytes<Config::maxPacketSize>::bytes >::type`,
given by the number of its values. -/
def buffer_size_t (cfg : Config) : Nat := best_storage_class (number_of_bytes cfg.maxPacketSize)

/-! ## State -/

/-- Source line 68: `frameFlag = 0x7E`. -/
def frameFlag : Nat := 0x7E

/-- Source line 69: `escapeFlag = 0x7D`. -/
def escapeFlag : Nat := 0x7D

/-- Source line 70: `escapeXOR = 0x20`. -/
def escapeXOR : Nat := 0x20

/-- The static data members of `SerProHDLC`, and the two logs of the collaborators.
`pBuf` is the memory at and after the start of the array `pBuf[Config::maxPacketSize]`. -/
structure State (E : CRCTYPE) where
  pBuf : Nat → Nat
  incrc : E.σ
  outcrc : E.σ
  pBufPtr : Nat
  pSize : Nat
  lastPacketSize : Nat
  inAddressField : Nat
  inControlField : Nat
  txSeqNum : Nat
  rxNextSeqNum : Nat
  unEscaping : Bool
  forceEscaping : Bool
  inPacket : Bool
  serial : List SerialOp
  handled : List (List Nat × Nat)

/-- The `len` bytes of the buffer starting at offset `start`. -/
def bufBytes (pBuf : Nat → Nat) (start len : Nat) : List Nat :=
  (List.range len).map (fun i => pBuf (start + i))

/-- The array store `pBuf[i] = v`. -/
def bufStore (pBuf : Nat → Nat) (i v : Nat) : Nat → Nat :=
  fun j => if j = i then v else pBuf j

/-! ## Transmitter -/

/-- Source lines 140-143: `forceEscaping=a`. -/
def setForceEscape {E : CRCTYPE} (st : State E) (a : Bool) : State E :=
  { st with forceEscaping := a }

/-- Transport call `Serial::write(b)`. -/
def serialWrite {E : CRCTYPE} (st : State E) (b : Nat) : State E :=
  { st with serial := st.serial ++ [SerialOp.write b] }

/-- Transport call `Serial::flush()`. -/
def serialFlush {E : CRCTYPE} (st : State E) : State E :=
  { st with serial := st.serial ++ [SerialOp.flush] }

/-- Call `outcrc.update(b)`. -/
def outcrcUpdate {E : CRCTYPE} (st : State E) (b : Nat) : State E :=
  { st with outcrc := E.update st.outcrc b }

/-- Source lines 163-170: an escape marker and the byte XOR `0x20` for the two markers
and under forced escaping, the byte itself otherwise. -/
def sendByte {E : CRCTYPE} (st : State E) (byte : Nat) : State E :=
  if byte = frameFlag ∨ byte = escapeFlag ∨ st.forceEscaping = true then
    serialWrite (serialWrite st escapeFlag) (byte ^^^ escapeXOR)
  else
    serialWrite st byte

/-- Source lines 223-229: `sendByte(0x3); outcrc.update(0x3)`. -/
def sendInformationControlField {E : CRCTYPE} (st : State E) : State E :=
  outcrcUpdate (sendByte st 0x3) 0x3

/-- Source lines 231-235: `outcrc.reset(); pBufPtr=0`; the argument is not used. -/
def startPacket {E : CRCTYPE} (st : State E) (_len : Nat) : State E :=
  { st with outcrc := E.reset, pBufPtr := 0 }

/-- Source lines 237-243: the literal boundary marker, the station id (cast to
`uint8_t`) sent and then given to the CRC, the control field. -/
def sendPreamble {E : CRCTYPE} (cfg : Config) (st : State E) : State E :=
  let st := serialWrite st frameFlag
  let st := sendByte st (cfg.stationId % 256)
  let st := outcrcUpdate st (cfg.stationId % 256)
  sendInformationControlField st

/-- Source lines 245-254: the CRC is read, its low byte and its high byte are sent
through `sendByte`, then the literal boundary marker and a flush; `txSeqNum` is an
`uint8_t`, incremented and masked with 7. -/
def sendPostamble {E : CRCTYPE} (st : State E) : State E :=
  let crc := E.get16 st.outcrc
  let st := sendByte st (crc &&& 0xff)
  let st := sendByte st ((crc >>> 8) % 256)
  let st := serialWrite st frameFlag
  let st := serialFlush st
  { st with txSeqNum := ((st.txSeqNum + 1) % 256) &&& 0x7 }

/-- Source lines 256-264, the overload `sendData(const unsigned char *buf,
packet_size_t size)`; the list is the `size` bytes at `buf`. Each byte is given to the
CRC and then sent. -/
def sendData {E : CRCTYPE} (st : State E) (buf : List Nat) : State E :=
  buf.foldl (fun s b => sendByte (outcrcUpdate s b) b) st

/-- Source lines 266-270, the overload `sendData(unsigned char c)`:
`outcrc.update(c); sendByte(c)`. -/
def sendDataChar {E : CRCTYPE} (st : State E) (c : Nat) : State E :=
  sendByte (outcrcUpdate st c) c

/-- Source lines 272-280. The call `sendData(command)` has one argument of type
`uint8_t`, so it is the overload `sendData(unsigned char)`. -/
def sendPacket {E : CRCTYPE} (cfg : Config) (st : State E) (command : Nat) (buf : List Nat) :
    State E :=
  let st := startPacket st buf.length
  let st := sendPreamble cfg st
  let st := outcrcUpdate st command
  let st := sendDataChar st command
  let st := sendData st buf
  sendPostamble st

/-- Source lines 282-290, the same statements as `sendPacket`. -/
def sendCommandPacket {E : CRCTYPE} (cfg : Config) (st : State E) (command : Nat)
    (buf : List Nat) : State E :=
  let st := startPacket st buf.length
  let st := sendPreamble cfg st
  let st := outcrcUpdate st command
  let st := sendDataChar st command
  let st := sendData st buf
  sendPostamble st

/-! ## Receiver -/

/-- Call `Implementation::processPacket(pBuf + off, len)`. -/
def processPacket {E : CRCTYPE} (st : State E) (off len : Nat) : State E :=
  { st with handled := st.handled ++ [(bufBytes st.pBuf off len, len)] }

/-- Source lines 292-321. Fewer than 4 buffered bytes: return. Otherwise `incrc` is
reset and given the bytes `pBuf[0 .. pBufPtr-2)`, the 16-bit value at `pBuf[pBufPtr-2]`
is read, and on a mismatch the function returns; on a match `lastPacketSize` is set,
the handler is called with `pBuf+2` and `pBufPtr-4`, and `pBufPtr` is set to 0. -/
def preProcessPacket {E : CRCTYPE} (st : State E) : State E :=
  if st.pBufPtr < 4 then
    st
  else
    let st1 : State E :=
      { st with incrc := (List.range (st.pBufPtr - 2)).foldl
                  (fun crc i => E.update crc (st.pBuf i)) E.reset }
    let pcrc := st1.pBuf (st1.pBufPtr - 2) + 256 * st1.pBuf (st1.pBufPtr - 1)
    if pcrc ≠ E.get16 st1.incrc then
      st1
    else
      let st2 : State E := { st1 with lastPacketSize := st1.pBufPtr - 4 }
      let st3 := processPacket st2 2 (st2.pBufPtr - 4)
      { st3 with pBufPtr := 0 }

/-- Source lines 323-357. The escape marker sets `unEscaping` and returns. A boundary
marker that does not follow an escape marker ends a non-empty packet (validation, then
`inPacket = false`) or begins one. Any other byte is unescaped if `unEscaping` is set
and stored at `pBuf[pBufPtr++]` if `pBufPtr < Config::maxPacketSize`; the other branch
of that test is empty in the source (comment `Process overrun error`). The increment
is in the index type `buffer_size_t`. -/
def processData {E : CRCTYPE} (cfg : Config) (st : State E) (bIn : Nat) : State E :=
  if bIn = escapeFlag then
    { st with unEscaping := true }
  else if bIn = frameFlag ∧ st.unEscaping = false then
    if st.inPacket = true then
      if st.pBufPtr ≠ 0 then
        { preProcessPacket st with inPacket := false }
      else
        st
    else
      { st with pBufPtr := 0, inPacket := true, incrc := E.reset }
  else
    let bIn1 := if st.unEscaping = true then bIn ^^^ escapeXOR else bIn
    let st1 : State E := if st.unEscaping = true then { st with unEscaping := false } else st
    if st1.pBufPtr < cfg.maxPacketSize then
      { st1 with pBuf := bufStore st1.pBuf st1.pBufPtr bIn1,
                 pBufPtr := (st1.pBufPtr + 1) % buffer_size_t cfg }
    else
      st1

/-- The caller's read loop: the bytes of a stream are passed to `processData` one at a
time, in order. -/
def feed {E : CRCTYPE} (cfg : Config) (st : State E) (bs : List Nat) : State E :=
  bs.foldl (processData cfg) st

/-! ## Helpers for stating the properties -/

/-- The bytes written to the transport, in order (flushes left out). -/
def wireBytes : List SerialOp → List Nat
  | [] => []
  | SerialOp.write b :: ops => b :: wireBytes ops
  | SerialOp.flush :: ops => wireBytes ops

/-- The encoding `enc(b)` of the wire format, in the words of the spec: the escape
marker followed by `b XOR 0x20` if `b` is `0x7E` or `0x7D` or escaping is forced (`fe`),
and `b` alone otherwise. `sendByte_eq` shows that `sendByte` writes these bytes. -/
def enc (fe : Bool) (b : Nat) : List Nat :=
  if b = 0x7E ∨ b = 0x7D ∨ fe = true then [0x7D, b ^^^ 0x20] else [b]

/-- Modelled from the spec: an instance of the CRC class of `crc16.h` (not among the
sources) for running the code on examples. It is the 16-bit frame check sequence of
RFC 1549, which the typedef `CRC16_rfc1549` names: register preset to `0xFFFF`, each
byte folded in least significant bit first with the polynomial `0x8408`, `get()`
returning the complemented register. -/
def CRC16_rfc1549 : CRCTYPE where
  σ := Nat
  reset := 0xFFFF
  update := fun crc b =>
    Nat.iterate (fun x => if x % 2 = 1 then (x / 2) ^^^ 0x8408 else x / 2) 8 (crc ^^^ b)
  get := fun crc => crc ^^^ 0xFFFF

/-- A CRC accumulator that records the bytes it is given since the last `reset()`. -/
def crcTrace : CRCTYPE where
  σ := List Nat
  reset := []
  update := fun l b => l ++ [b]
  get := fun _ => 0

/-- The state the macro `IMPLEMENT_PROTOCOL_SerProHDLC` defines: counters zero, flags
false, buffer zeroed; the accumulators are default-constructed. -/
def initState (E : CRCTYPE) (incrc outcrc : E.σ) : State E where
  pBuf := fun _ => 0
  incrc := incrc
  outcrc := outcrc
  pBufPtr := 0
  pSize := 0
  lastPacketSize := 0
  inAddressField := 0
  inControlField := 0
  txSeqNum := 0
  rxNextSeqNum := 0
  unEscaping := false
  forceEscaping := false
  inPacket := false
  serial := []
  handled := []

/-- The buffer after the bytes `ds` have been stored at the consecutive positions
`n`, `n + 1`, ... -/
def storeList (pBuf : Nat → Nat) (n : Nat) : List Nat → (Nat → Nat)
  | [] => pBuf
  | b :: ds => storeList (bufStore pBuf n b) (n + 1) ds

/-- States the program can be in: it starts with index 0, Idle and no pending unescape,
and then the public operations are called in any order. -/
inductive Reachable {E : CRCTYPE} (cfg : Config) : State E → Prop where
  | start (st : State E) :
      st.pBufPtr = 0 → st.inPacket = false → st.unEscaping = false → Reachable cfg st
  | processData (st : State E) (b : Nat) :
      Reachable cfg st → Reachable cfg (processData cfg st b)
  | sendPacket (st : State E) (command : Nat) (buf : List Nat) :
      Reachable cfg st → Reachable cfg (sendPacket cfg st command buf)
  | sendCommandPacket (st : State E) (command : Nat) (buf : List Nat) :
      Reachable cfg st → Reachable cfg (sendCommandPacket cfg st command buf)
  | setForceEscape (st : State E) (a : Bool) :
      Reachable cfg st → Reachable cfg (setForceEscape st a)

/-- The bytes of one frame before escaping: station id, control byte, command, payload
and the two bytes of the 16-bit value `k`, low byte first. -/
def frameBody (cfg : Config) (command : Nat) (buf : List Nat) (k : Nat) : List Nat :=
  [cfg.stationId % 256, 0x03, command] ++ buf ++ [k % 256, k / 256]

/-- The bytes one call of `sendPacket` writes to the transport: what it appends to the
log of the transport, flushes left out. -/
def sendPacketBytes {E : CRCTYPE} (cfg : Config) (st : State E) (command : Nat)
    (buf : List Nat) : List Nat :=
  wireBytes ((sendPacket cfg st command buf).serial.drop st.serial.length)

/-- The stream `w` holds the value `0x7E` at exactly two positions, its first and its
last one. -/
def flagOnlyAtEnds (w : List Nat) : Prop :=
  w.head? = some 0x7E ∧ w.getLast? = some 0x7E ∧ w.count 0x7E = 2

instance (w : List Nat) : Decidable (flagOnlyAtEnds w) := by
  unfold flagOnlyAtEnds
  infer_instance

/-- A well-formed frame as it travels on the wire: the boundary marker, then the bytes
`[s, 0x03, c] ++ p` followed by the low and the high byte of their CRC16, each escaped
as the wire format prescribes (forced escaping off), then the boundary marker. -/
def wellFormedFrame (E : CRCTYPE) (s c : Nat) (p : List Nat) : List Nat :=
  [0x7E] ++
    ([s, 0x03, c] ++ p ++
      [crc16 E ([s, 0x03, c] ++ p) % 256, crc16 E ([s, 0x03, c] ++ p) / 256]).flatMap
      (enc false) ++
    [0x7E]

/-- The 16-bit value read from the last two of the buffered bytes, low byte first:
the source reads it with `*((crc_t*)&pBuf[pBufPtr-2])`. -/
def storedCrc {E : CRCTYPE} (st : State E) : Nat :=
  st.pBuf (st.pBufPtr - 2) + 256 * st.pBuf (st.pBufPtr - 1)

/-- CRC16 of the buffered bytes without the last two. -/
def computedCrc {E : CRCTYPE} (st : State E) : Nat :=
  crc16 E (bufBytes st.pBuf 0 (st.pBufPtr - 2))

/-- The bytes at positions 2 up to `pBufPtr - 2` of the buffer, and their number. -/
def dispatchedPacket {E : CRCTYPE} (st : State E) : List Nat × Nat :=
  (bufBytes st.pBuf 2 (st.pBufPtr - 4), st.pBufPtr - 4)

/-- Source lines 102-105: the struct `RawBuffer`; the pointer `buffer` is given by its
offset from the start of `pBuf`. -/
structure RawBuffer where
  buffer : Nat
  size : Nat
  deriving DecidableEq

/-- Source lines 154-161: `r.buffer = pBuf+3; r.size = lastPacketSize`, the size being
converted from `packet_size_t` to `buffer_size_t`. -/
def getRawBuffer {E : CRCTYPE} (cfg : Config) (st : State E) : RawBuffer :=
  { buffer := 3, size := st.lastPacketSize % buffer_size_t cfg }

/-- One call of a public operation of the class. -/
inductive Call where
  | processData (bIn : Nat)
  | sendPacket (command : Nat) (buf : List Nat)
  | sendCommandPacket (command : Nat) (buf : List Nat)
  | setForceEscape (a : Bool)

/-- The state after one call. -/
def call {E : CRCTYPE} (cfg : Config) (st : State E) : Call → State E
  | Call.processData bIn => processData cfg st bIn
  | Call.sendPacket command buf => sendPacket cfg st command buf
  | Call.sendCommandPacket command buf => sendCommandPacket cfg st command buf
  | Call.setForceEscape a => setForceEscape st a

/-- The state after a sequence of calls, made in order. -/
def run {E : CRCTYPE} (cfg : Config) (st : State E) (cs : List Call) : State E :=
  cs.foldl (call cfg) st

/-- The number of frames a sequence of calls transmits. -/
def framesSent : List Call → Nat
  | [] => 0
  | Call.sendPacket _ _ :: cs => framesSent cs + 1
  | Call.sendCommandPacket _ _ :: cs => framesSent cs + 1
  | _ :: cs => framesSent cs

/-- Station id, command and payload of a frame. -/
structure Frame where
  station : Nat
  command : Nat
  payload : List Nat

/-- The well-formed frame of `f` as it travels on the wire. -/
def Frame.wire (E : CRCTYPE) (f : Frame) : List Nat :=
  wellFormedFrame E f.station f.command f.payload

/-- What the handler is to be given for the frame `f`: command and payload, and their
number. -/
def Frame.packet (f : Frame) : List Nat × Nat :=
  ([f.command] ++ f.payload, 1 + f.payload.length)

/-- The frame fits the buffer and its length is within the range of the index type. -/
def Frame.fits (cfg : Config) (f : Frame) : Prop :=
  5 + f.payload.length ≤ cfg.maxPacketSize ∧ 5 + f.payload.length < buffer_size_t cfg

instance (cfg : Config) (f : Frame) : Decidable (Frame.fits cfg f) := by
  unfold Frame.fits
  infer_instance

/-- The configuration of the worked example: capacity 16, station id 0x05. -/
def exampleConfig : Config := ⟨16, 0x05⟩

/-- The initial state, with the RFC 1549 check sequence as the CRC class. -/
def exampleState : State CRC16_rfc1549 :=
  initState CRC16_rfc1549 CRC16_rfc1549.reset CRC16_rfc1549.reset

/-! ## The transmitter -/

theorem sendByte_eq {E : CRCTYPE} (st : State E) (b : Nat) :
    sendByte st b =
      { st with serial := st.serial ++ (enc st.forceEscaping b).map SerialOp.write } := by
  unfold sendByte enc serialWrite frameFlag escapeFlag escapeXOR
  by_cases h : b = 0x7E ∨ b = 0x7D ∨ st.forceEscaping = true
  · simp [h]
  · simp [h]

theorem sendData_eq {E : CRCTYPE} (buf : List Nat) (st : State E) :
    sendData st buf =
      { st with outcrc := buf.foldl E.update st.outcrc,
                serial := st.serial ++
                  (buf.flatMap (enc st.forceEscaping)).map SerialOp.write } := by
  induction buf generalizing st with
  | nil => simp [sendData]
  | cons b bs ih =>
    have h := ih (sendByte (outcrcUpdate st b) b)
    simp only [sendData, List.foldl_cons] at h ⊢
    rw [h, sendByte_eq]
    simp [outcrcUpdate, List.flatMap_cons]

theorem sendPacket_eq {E : CRCTYPE} (cfg : Config) (st : State E) (command : Nat)
    (buf : List Nat) :
    sendPacket cfg st command buf =
      { st with
        outcrc := ([cfg.stationId % 256, 0x03, command, command] ++ buf).foldl
                    E.update E.reset,
        pBufPtr := 0,
        serial := st.serial ++ [SerialOp.write 0x7E] ++
          ((frameBody cfg command buf
              (crc16 E ([cfg.stationId % 256, 0x03, command, command] ++ buf))).flatMap
            (enc st.forceEscaping)).map SerialOp.write ++
          [SerialOp.write 0x7E, SerialOp.flush],
        txSeqNum := ((st.txSeqNum + 1) % 256) &&& 0x7 } := by
  have hlo : ∀ k : Nat, k &&& 0xff = k % 256 := fun k =>
    Nat.and_pow_two_sub_one_eq_mod k 8
  have hhi : ∀ k : Nat, k < 65536 → (k >>> 8) % 256 = k / 256 := by
    intro k hk
    rw [Nat.shiftRight_eq_div_pow]
    omega
  have hk : crc16 E ([cfg.stationId % 256, 0x03, command, command] ++ buf) < 65536 :=
    Nat.mod_lt _ (by decide)
  simp only [sendPacket, sendPostamble, sendDataChar, sendPreamble,
    sendInformationControlField, startPacket, sendData_eq, sendByte_eq, outcrcUpdate,
    serialWrite, serialFlush, frameFlag]
  simp only [crc16, List.foldl_append, List.foldl_cons, List.foldl_nil] at hk ⊢
  simp [frameBody, hlo, hhi _ hk, crc16, List.flatMap_append, List.flatMap_cons]

theorem wireBytes_append (a b : List SerialOp) :
    wireBytes (a ++ b) = wireBytes a ++ wireBytes b := by
  induction a with
  | nil => rfl
  | cons x xs ih => cases x <;> simp [wireBytes, ih]

theorem wireBytes_map_write (l : List Nat) : wireBytes (l.map SerialOp.write) = l := by
  induction l with
  | nil => rfl
  | cons x xs ih => simp [wireBytes, ih]

theorem sendPacketBytes_eq {E : CRCTYPE} (cfg : Config) (st : State E) (command : Nat)
    (buf : List Nat) :
    sendPacketBytes cfg st command buf =
      [0x7E] ++ (frameBody cfg command buf
          (crc16 E ([cfg.stationId % 256, 0x03, command, command] ++ buf))).flatMap
        (enc st.forceEscaping) ++ [0x7E] := by
  unfold sendPacketBytes
  rw [sendPacket_eq]
  simp only [List.append_assoc, List.drop_left]
  simp [wireBytes_append, wireBytes_map_write, wireBytes]

theorem flag_not_mem_enc (fe : Bool) (b : Nat) (h : fe = true → b ≠ 0x5E) :
    0x7E ∉ enc fe b := by
  have hx : b ^^^ 0x20 = 0x7E → b = 0x5E := by
    intro hb
    have := Nat.xor_cancel_right 0x20 b
    rw [hb] at this
    exact this.symm
  unfold enc
  by_cases hc : b = 0x7E ∨ b = 0x7D ∨ fe = true
  · rw [if_pos hc]
    intro hm
    simp only [List.mem_cons, List.mem_singleton, List.not_mem_nil, or_false] at hm
    rcases hm with hm | hm
    · exact absurd hm (by decide)
    · have hb := hx hm.symm
      rcases hc with hc | hc | hc
      · omega
      · omega
      · exact h hc hb
  · rw [if_neg hc]
    intro hm
    simp only [List.mem_singleton] at hm
    exact hc (Or.inl hm.symm)

theorem flagOnlyAtEnds_of_mid (mid : List Nat) (h : 0x7E ∉ mid) :
    flagOnlyAtEnds ([0x7E] ++ mid ++ [0x7E]) := by
  refine ⟨by simp, ?_, ?_⟩
  · rw [List.getLast?_append]
    simp
  · simp [List.count_eq_zero_of_not_mem h]

/-! ## The receiver -/

theorem feed_append {E : CRCTYPE} (cfg : Config) (st : State E) (a b : List Nat) :
    feed cfg st (a ++ b) = feed cfg (feed cfg st a) b := by
  simp [feed, List.foldl_append]

theorem feed_cons {E : CRCTYPE} (cfg : Config) (st : State E) (b : Nat) (bs : List Nat) :
    feed cfg st (b :: bs) = feed cfg (processData cfg st b) bs := rfl

theorem feed_nil {E : CRCTYPE} (cfg : Config) (st : State E) : feed cfg st [] = st := rfl

theorem bufStore_other (f : Nat → Nat) (i v j : Nat) (h : j ≠ i) :
    bufStore f i v j = f j := by
  simp [bufStore, h]

theorem storeList_below (ds : List Nat) (f : Nat → Nat) (n j : Nat) (h : j < n) :
    storeList f n ds j = f j := by
  induction ds generalizing f n with
  | nil => rfl
  | cons b ds ih =>
    simp only [storeList]
    rw [ih _ _ (by omega), bufStore_other _ _ _ _ (by omega)]

theorem storeList_at (ds : List Nat) (f : Nat → Nat) (n i : Nat) (h : i < ds.length) :
    storeList f n ds (n + i) = ds[i] := by
  induction ds generalizing f n i with
  | nil => simp at h
  | cons b ds ih =>
    simp only [storeList]
    cases i with
    | zero =>
      rw [storeList_below _ _ _ _ (by omega)]
      simp [bufStore]
    | succ i =>
      have hi : i < ds.length := by simpa using h
      have := ih (bufStore f n b) (n + 1) i hi
      rw [show n + (i + 1) = n + 1 + i by omega, this]
      rfl

theorem storeList_above (ds : List Nat) (f : Nat → Nat) (n j : Nat)
    (h : n + ds.length ≤ j) : storeList f n ds j = f j := by
  induction ds generalizing f n with
  | nil => rfl
  | cons b ds ih =>
    simp only [storeList]
    simp only [List.length_cons] at h
    rw [ih _ _ (by omega), bufStore_other _ _ _ _ (by omega)]

theorem bufBytes_storeList (ds : List Nat) (f : Nat → Nat) (k len : Nat)
    (h : k + len ≤ ds.length) :
    bufBytes (storeList f 0 ds) k len = (ds.drop k).take len := by
  apply List.ext_getElem
  · simp [bufBytes]
    omega
  · intro i h1 h2
    simp only [bufBytes, List.length_map, List.length_range] at h1
    simp only [bufBytes, List.getElem_map, List.getElem_range, List.getElem_take,
      List.getElem_drop]
    have := storeList_at ds f 0 (k + i) (by omega)
    rw [Nat.zero_add] at this
    exact this

theorem range_mod_of_lt (cfg : Config) (n : Nat) (h : n < buffer_size_t cfg) :
    n % buffer_size_t cfg = n := Nat.mod_eq_of_lt h

/-- One data byte, written as the wire format escapes it, is stored as itself. -/
theorem feed_enc {E : CRCTYPE} (cfg : Config) (st : State E) (b : Nat)
    (hU : st.unEscaping = false) (hM : st.pBufPtr < cfg.maxPacketSize)
    (hR : st.pBufPtr + 1 < buffer_size_t cfg) :
    feed cfg st (enc false b) =
      { st with pBuf := bufStore st.pBuf st.pBufPtr b, pBufPtr := st.pBufPtr + 1 } := by
  obtain ⟨pBuf, incrc, outcrc, pBufPtr, pSize, lastPacketSize, inAddressField,
    inControlField, txSeqNum, rxNextSeqNum, unEscaping, forceEscaping, inPacket, serial,
    handled⟩ := st
  simp only at hU hM hR
  subst hU
  have hmod := Nat.mod_eq_of_lt hR
  by_cases h1 : b = 0x7E
  · subst h1
    simp [enc, feed, processData, escapeFlag, frameFlag, escapeXOR, hM, hmod]
  · by_cases h2 : b = 0x7D
    · subst h2
      simp [enc, feed, processData, escapeFlag, frameFlag, escapeXOR, hM, hmod]
    · simp [enc, feed, processData, escapeFlag, frameFlag, escapeXOR, hM, hmod, h1, h2]

theorem feed_encs {E : CRCTYPE} (cfg : Config) (ds : List Nat) (st : State E)
    (hU : st.unEscaping = false) (hM : st.pBufPtr + ds.length ≤ cfg.maxPacketSize)
    (hR : st.pBufPtr + ds.length < buffer_size_t cfg) :
    feed cfg st (ds.flatMap (enc false)) =
      { st with pBuf := storeList st.pBuf st.pBufPtr ds,
                pBufPtr := st.pBufPtr + ds.length } := by
  induction ds generalizing st with
  | nil => simp [feed, storeList]
  | cons b ds ih =>
    simp only [List.length_cons] at hM hR
    rw [List.flatMap_cons, feed_append, feed_enc cfg st b hU (by omega) (by omega)]
    have h := ih { st with pBuf := bufStore st.pBuf st.pBufPtr b, pBufPtr := st.pBufPtr + 1 }
      hU (by simp only; omega) (by simp only; omega)
    rw [h]
    simp only [storeList, List.length_cons, State.mk.injEq, true_and, and_true]
    omega

theorem crc_loop_eq {E : CRCTYPE} (f : Nat → Nat) (n : Nat) :
    (List.range n).foldl (fun crc i => E.update crc (f i)) E.reset =
      (bufBytes f 0 n).foldl E.update E.reset := by
  simp [bufBytes, List.foldl_map]

/-- What validation does, field by field. -/
theorem preProcessPacket_eq {E : CRCTYPE} (st : State E) :
    preProcessPacket st =
      if st.pBufPtr < 4 then st
      else if st.pBuf (st.pBufPtr - 2) + 256 * st.pBuf (st.pBufPtr - 1) =
          crc16 E (bufBytes st.pBuf 0 (st.pBufPtr - 2)) then
        { st with incrc := (bufBytes st.pBuf 0 (st.pBufPtr - 2)).foldl E.update E.reset,
                  lastPacketSize := st.pBufPtr - 4,
                  handled := st.handled ++
                    [(bufBytes st.pBuf 2 (st.pBufPtr - 4), st.pBufPtr - 4)],
                  pBufPtr := 0 }
      else
        { st with incrc := (bufBytes st.pBuf 0 (st.pBufPtr - 2)).foldl E.update E.reset } := by
  unfold preProcessPacket
  by_cases h4 : st.pBufPtr < 4
  · simp [h4]
  · simp only [h4, if_false, crc_loop_eq, crc16, processPacket]
    by_cases hc : st.pBuf (st.pBufPtr - 2) + 256 * st.pBuf (st.pBufPtr - 1) =
        E.get16 ((bufBytes st.pBuf 0 (st.pBufPtr - 2)).foldl E.update E.reset)
    · simp [hc]
    · simp [hc]

/-- A whole frame fed to an Idle receiver: the frame start resets the index, the data
bytes are stored from position 0 on, and the closing boundary runs validation. -/
theorem feed_frame {E : CRCTYPE} (cfg : Config) (st : State E) (ds : List Nat)
    (hI : st.inPacket = false) (hU : st.unEscaping = false) (h1 : 1 ≤ ds.length)
    (hM : ds.length ≤ cfg.maxPacketSize) (hR : ds.length < buffer_size_t cfg) :
    feed cfg st ([0x7E] ++ ds.flatMap (enc false) ++ [0x7E]) =
      { preProcessPacket
          { st with pBuf := storeList st.pBuf 0 ds, pBufPtr := ds.length,
                    inPacket := true, incrc := E.reset } with inPacket := false } := by
  have hopen : processData cfg st 0x7E =
      { st with pBufPtr := 0, inPacket := true, incrc := E.reset } := by
    simp [processData, escapeFlag, frameFlag, hI, hU]
  rw [feed_append, feed_append, show feed cfg st [0x7E] = processData cfg st 0x7E from rfl,
    hopen]
  have h := feed_encs cfg ds
    { st with pBufPtr := 0, inPacket := true, incrc := E.reset } hU
    (by simp only; omega) (by simp only; omega)
  rw [h, feed_cons, feed_nil]
  simp only [Nat.zero_add]
  have hne : ds.length ≠ 0 := by omega
  simp [processData, escapeFlag, frameFlag, hU, hne]

/-- A frame whose unescaped bytes are `body` followed by the two bytes `lo`, `hi`,
fed to an Idle receiver: it is dispatched exactly when `lo + 256 * hi` is the CRC16 of
`body`, and then the handler is given `body` without its first two bytes. -/
theorem feed_frame_body {E : CRCTYPE} (cfg : Config) (st : State E) (body : List Nat)
    (lo hi : Nat) (hI : st.inPacket = false) (hU : st.unEscaping = false)
    (h2 : 2 ≤ body.length) (hM : body.length + 2 ≤ cfg.maxPacketSize)
    (hR : body.length + 2 < buffer_size_t cfg) :
    feed cfg st ([0x7E] ++ (body ++ [lo, hi]).flatMap (enc false) ++ [0x7E]) =
      if lo + 256 * hi = crc16 E body then
        { st with pBuf := storeList st.pBuf 0 (body ++ [lo, hi]),
                  incrc := body.foldl E.update E.reset,
                  lastPacketSize := body.length - 2,
                  handled := st.handled ++ [(body.drop 2, body.length - 2)],
                  pBufPtr := 0,
                  inPacket := false }
      else
        { st with pBuf := storeList st.pBuf 0 (body ++ [lo, hi]),
                  incrc := body.foldl E.update E.reset,
                  pBufPtr := body.length + 2,
                  inPacket := false } := by
  have hlen : (body ++ [lo, hi]).length = body.length + 2 := by simp
  have h4 : ¬ (body ++ [lo, hi]).length < 4 := by omega
  have hB0 : bufBytes (storeList st.pBuf 0 (body ++ [lo, hi])) 0
      ((body ++ [lo, hi]).length - 2) = body := by
    rw [bufBytes_storeList _ _ _ _ (by omega), hlen]
    simp
  have hB2 : bufBytes (storeList st.pBuf 0 (body ++ [lo, hi])) 2
      ((body ++ [lo, hi]).length - 4) = body.drop 2 := by
    rw [bufBytes_storeList _ _ _ _ (by omega), hlen, List.drop_append_of_le_length h2,
      show body.length + 2 - 4 = (body.drop 2).length by simp, List.take_left]
  have hlo : storeList st.pBuf 0 (body ++ [lo, hi]) ((body ++ [lo, hi]).length - 2) = lo := by
    have := storeList_at (body ++ [lo, hi]) st.pBuf 0 body.length (by omega)
    rw [Nat.zero_add] at this
    rw [hlen, show body.length + 2 - 2 = body.length by omega, this]
    simp [List.getElem_append_right]
  have hhi : storeList st.pBuf 0 (body ++ [lo, hi]) ((body ++ [lo, hi]).length - 1) = hi := by
    have := storeList_at (body ++ [lo, hi]) st.pBuf 0 (body.length + 1) (by omega)
    rw [Nat.zero_add] at this
    rw [hlen, show body.length + 2 - 1 = body.length + 1 by omega, this]
    simp [List.getElem_append_right]
  rw [feed_frame cfg st _ hI hU (by omega) (by omega) (by omega), preProcessPacket_eq]
  simp only [h4, hB0, hB2, hlo, hhi, if_false]
  by_cases hc : lo + 256 * hi = crc16 E body
  · simp only [hc, if_true, hlen, State.mk.injEq, true_and, and_true]
    have e : body.length + 2 - 4 = body.length - 2 := by omega
    rw [e]
    exact ⟨rfl, rfl⟩
  · simp only [hc, if_false, hlen]

/-- The handler log after one byte: it grows by one entry exactly when the byte is an
unescaped boundary marker closing a frame of at least 4 bytes whose CRC matches. -/
theorem processData_handled {E : CRCTYPE} (cfg : Config) (st : State E) (b : Nat) :
    (processData cfg st b).handled =
      st.handled ++
        (if b = 0x7E ∧ st.unEscaping = false ∧ st.inPacket = true ∧ 4 ≤ st.pBufPtr ∧
            storedCrc st = computedCrc st then [dispatchedPacket st] else []) := by
  unfold processData escapeFlag frameFlag
  by_cases hE : b = 0x7D
  · subst hE
    simp
  · simp only [hE, if_false]
    by_cases hF : b = 0x7E ∧ st.unEscaping = false
    · obtain ⟨hb, hU⟩ := hF
      subst hb
      simp only [hU, and_self, if_true, true_and]
      by_cases hI : st.inPacket = true
      · simp only [hI, if_true, true_and]
        by_cases h0 : st.pBufPtr = 0
        · simp [h0]
        · simp only [ne_eq, h0, not_false_eq_true, if_true, preProcessPacket_eq]
          by_cases h4 : st.pBufPtr < 4
          · simp [h4, Nat.not_le.mpr h4]
          · have h4b : 4 ≤ st.pBufPtr := Nat.not_lt.mp h4
            by_cases hc : storedCrc st = computedCrc st
            · have hc2 := hc
              unfold storedCrc computedCrc at hc2
              simp [h4, h4b, hc, hc2, dispatchedPacket]
            · have hc2 := hc
              unfold storedCrc computedCrc at hc2
              simp [h4, h4b, hc, hc2]
      · simp [hI]
    · have hF2 : ¬ (b = 0x7E ∧ st.unEscaping = false ∧ st.inPacket = true ∧ 4 ≤ st.pBufPtr ∧
          storedCrc st = computedCrc st) := fun h => hF ⟨h.1, h.2.1⟩
      simp only [hF, hF2, if_false, List.append_nil]
      by_cases hU : st.unEscaping = true <;>
        by_cases hM : st.pBufPtr < cfg.maxPacketSize <;> simp [hU, hM]

/-- Every entry the handler log gains while a stream is fed was dispatched by a closing
boundary marker that found at least 4 buffered bytes with a matching CRC. -/
theorem feed_handled {E : CRCTYPE} (cfg : Config) (bs : List Nat) (st : State E) :
    ∃ es, (feed cfg st bs).handled = st.handled ++ es ∧
      ∀ e ∈ es, ∃ pre post, bs = pre ++ 0x7E :: post ∧
        (feed cfg st pre).inPacket = true ∧ (feed cfg st pre).unEscaping = false ∧
        4 ≤ (feed cfg st pre).pBufPtr ∧
        storedCrc (feed cfg st pre) = computedCrc (feed cfg st pre) ∧
        e = dispatchedPacket (feed cfg st pre) := by
  induction bs generalizing st with
  | nil => exact ⟨[], by simp [feed], by simp⟩
  | cons b bs ih =>
    obtain ⟨es, hes, hall⟩ := ih (processData cfg st b)
    rw [feed_cons, hes, processData_handled, List.append_assoc]
    refine ⟨_, rfl, ?_⟩
    intro e he
    rcases List.mem_append.mp he with h0 | h1
    · by_cases hg : b = 0x7E ∧ st.unEscaping = false ∧ st.inPacket = true ∧ 4 ≤ st.pBufPtr ∧
          storedCrc st = computedCrc st
      · rw [if_pos hg] at h0
        obtain ⟨hb, hU, hI, h4, hc⟩ := hg
        refine ⟨[], bs, by simp [hb], ?_⟩
        simp only [feed_nil]
        exact ⟨hI, hU, h4, hc, List.mem_singleton.mp h0⟩
      · rw [if_neg hg] at h0
        exact absurd h0 (List.not_mem_nil _)
    · obtain ⟨pre, post, hbs, h⟩ := hall e h1
      exact ⟨b :: pre, post, by simp [hbs], by simpa [feed_cons] using h⟩

/-- What the receiver makes of the stream of one `sendPacket` (forced escaping off):
the frame is dispatched exactly when the CRC16 of station id, control byte, command,
command, payload equals the CRC16 of station id, control byte, command, payload. -/
theorem feed_sendPacketBytes {E : CRCTYPE} (cfg : Config) (tx rx : State E) (c : Nat)
    (p : List Nat) (hF : tx.forceEscaping = false)
    (hI : rx.inPacket = false) (hU : rx.unEscaping = false)
    (hM : 5 + p.length ≤ cfg.maxPacketSize) (hR : 5 + p.length < buffer_size_t cfg) :
    (feed cfg rx (sendPacketBytes cfg tx c p)).handled =
      rx.handled ++
        (if crc16 E ([cfg.stationId % 256, 0x03, c, c] ++ p) =
            crc16 E ([cfg.stationId % 256, 0x03, c] ++ p)
          then [([c] ++ p, 1 + p.length)] else []) := by
  have hk := Nat.mod_add_div (crc16 E ([cfg.stationId % 256, 0x03, c, c] ++ p)) 256
  rw [sendPacketBytes_eq, hF]
  unfold frameBody
  rw [feed_frame_body cfg rx _ _ _ hI hU (by simp) (by simp; omega) (by simp; omega), hk]
  by_cases hc : crc16 E ([cfg.stationId % 256, 0x03, c, c] ++ p) =
      crc16 E ([cfg.stationId % 256, 0x03, c] ++ p)
  · rw [if_pos hc, if_pos hc]
    simp
    omega
  · rw [if_neg hc, if_neg hc]
    simp

/-- The branch of `processData` for a byte that is neither the escape marker nor an
unescaped boundary marker. -/
theorem processData_data {E : CRCTYPE} (cfg : Config) (st : State E) (b : Nat)
    (hE : b ≠ escapeFlag) (hF : ¬ (b = frameFlag ∧ st.unEscaping = false)) :
    processData cfg st b =
      if st.pBufPtr < cfg.maxPacketSize then
        { st with unEscaping := false,
                  pBuf := bufStore st.pBuf st.pBufPtr
                    (if st.unEscaping = true then b ^^^ escapeXOR else b),
                  pBufPtr := (st.pBufPtr + 1) % buffer_size_t cfg }
      else
        { st with unEscaping := false } := by
  obtain ⟨pBuf, incrc, outcrc, pBufPtr, pSize, lastPacketSize, inAddressField,
    inControlField, txSeqNum, rxNextSeqNum, unEscaping, forceEscaping, inPacket, serial,
    handled⟩ := st
  unfold processData
  simp only [hE, hF, if_false]
  cases unEscaping <;> simp

/-- The branch of `processData` for a boundary marker that is not escaped. -/
theorem processData_boundary {E : CRCTYPE} (cfg : Config) (st : State E)
    (hU : st.unEscaping = false) :
    processData cfg st frameFlag =
      if st.inPacket = true then
        if st.pBufPtr ≠ 0 then { preProcessPacket st with inPacket := false } else st
      else
        { st with pBufPtr := 0, inPacket := true, incrc := E.reset } := by
  unfold processData
  simp [hU, frameFlag, escapeFlag]

theorem preProcessPacket_pBuf {E : CRCTYPE} (st : State E) :
    (preProcessPacket st).pBuf = st.pBuf := by
  rw [preProcessPacket_eq]
  split
  · rfl
  · split <;> rfl

theorem preProcessPacket_pBufPtr {E : CRCTYPE} (st : State E) :
    (preProcessPacket st).pBufPtr = 0 ∨ (preProcessPacket st).pBufPtr = st.pBufPtr := by
  rw [preProcessPacket_eq]
  split
  · exact Or.inr rfl
  · split
    · exact Or.inl rfl
    · exact Or.inr rfl

theorem processData_pBufPtr_le {E : CRCTYPE} (cfg : Config) (st : State E) (b : Nat)
    (h : st.pBufPtr ≤ cfg.maxPacketSize) :
    (processData cfg st b).pBufPtr ≤ cfg.maxPacketSize := by
  by_cases hE : b = escapeFlag
  · simp [processData, hE, h]
  · by_cases hF : b = frameFlag ∧ st.unEscaping = false
    · obtain ⟨hb, hU⟩ := hF
      subst hb
      rw [processData_boundary cfg st hU]
      split
      · split
        · show (preProcessPacket st).pBufPtr ≤ cfg.maxPacketSize
          rcases preProcessPacket_pBufPtr st with h1 | h1 <;> rw [h1]
          · exact Nat.zero_le _
          · exact h
        · exact h
      · exact Nat.zero_le _
    · rw [processData_data cfg st b hE hF]
      split
      · next hM => exact Nat.le_trans (Nat.mod_le _ _) hM
      · exact h

theorem sendCommandPacket_eq_sendPacket {E : CRCTYPE} (cfg : Config) (st : State E)
    (command : Nat) (buf : List Nat) :
    sendCommandPacket cfg st command buf = sendPacket cfg st command buf := rfl

theorem reachable_pBufPtr_le {E : CRCTYPE} (cfg : Config) (st : State E)
    (h : Reachable cfg st) : st.pBufPtr ≤ cfg.maxPacketSize := by
  induction h with
  | start st h0 _ _ => rw [h0]; exact Nat.zero_le _
  | processData st b _ ih => exact processData_pBufPtr_le cfg st b ih
  | sendPacket st c p _ _ => rw [sendPacket_eq]; exact Nat.zero_le _
  | sendCommandPacket st c p _ _ =>
    rw [sendCommandPacket_eq_sendPacket, sendPacket_eq]; exact Nat.zero_le _
  | setForceEscape st a _ ih => exact ih

theorem reachable_feed {E : CRCTYPE} (cfg : Config) (bs : List Nat) (st : State E)
    (h : Reachable cfg st) : Reachable cfg (feed cfg st bs) := by
  induction bs generalizing st with
  | nil => exact h
  | cons b bs ih => exact ih _ (Reachable.processData st b h)

/-- One call of `processData` leaves the buffer as it is or stores one byte, at the
position of the index, and only if the index is below the capacity. -/
theorem processData_pBuf {E : CRCTYPE} (cfg : Config) (st : State E) (b : Nat) :
    (processData cfg st b).pBuf = st.pBuf ∨
      (st.pBufPtr < cfg.maxPacketSize ∧
        ∃ v, (processData cfg st b).pBuf = bufStore st.pBuf st.pBufPtr v) := by
  by_cases hE : b = escapeFlag
  · simp [processData, hE]
  · by_cases hF : b = frameFlag ∧ st.unEscaping = false
    · obtain ⟨hb, hU⟩ := hF
      subst hb
      rw [processData_boundary cfg st hU]
      left
      split
      · split
        · exact preProcessPacket_pBuf st
        · rfl
      · rfl
    · rw [processData_data cfg st b hE hF]
      split
      · next hM => exact Or.inr ⟨hM, _, rfl⟩
      · exact Or.inl rfl

/-- A byte that is not handled as a boundary marker is dropped when the index has
reached the capacity. -/
theorem processData_full {E : CRCTYPE} (cfg : Config) (st : State E) (b : Nat)
    (hfull : st.pBufPtr = cfg.maxPacketSize)
    (hb : ¬ (b = frameFlag ∧ st.unEscaping = false)) :
    (processData cfg st b).pBufPtr = st.pBufPtr ∧ (processData cfg st b).pBuf = st.pBuf := by
  have hM : ¬ st.pBufPtr < cfg.maxPacketSize := by omega
  by_cases hE : b = escapeFlag
  · simp [processData, hE]
  · rw [processData_data cfg st b hE hb, if_neg hM]
    exact ⟨rfl, rfl⟩

/-- The index after a closing boundary marker: 0 after a dispatch, unchanged after a
failed validation; the receiver is Idle in both cases. -/
theorem processData_close {E : CRCTYPE} (cfg : Config) (st : State E)
    (hI : st.inPacket = true) (hU : st.unEscaping = false) (h1 : 1 ≤ st.pBufPtr) :
    (processData cfg st 0x7E).pBufPtr =
        (if 4 ≤ st.pBufPtr ∧ storedCrc st = computedCrc st then 0 else st.pBufPtr) ∧
      (processData cfg st 0x7E).inPacket = false ∧
      (processData cfg st 0x7E).unEscaping = false := by
  have h0 : st.pBufPtr ≠ 0 := by omega
  have hb := processData_boundary cfg st hU
  unfold frameFlag at hb
  rw [hb, if_pos hI, if_pos h0, preProcessPacket_eq]
  unfold storedCrc computedCrc
  by_cases h4 : st.pBufPtr < 4
  · simp [h4, Nat.not_le.mpr h4, hU]
  · have h4b : 4 ≤ st.pBufPtr := Nat.not_lt.mp h4
    by_cases hc : st.pBuf (st.pBufPtr - 2) + 256 * st.pBuf (st.pBufPtr - 1) =
        crc16 E (bufBytes st.pBuf 0 (st.pBufPtr - 2))
    · simp [h4, h4b, hc, hU]
    · simp [h4, h4b, hc, hU]

/-- The byte after an escape marker, when there is room: every byte but the escape
marker itself is stored XOR `0x20` and clears the flag. -/
theorem processData_pending {E : CRCTYPE} (cfg : Config) (st : State E) (b : Nat)
    (hU : st.unEscaping = true) (hM : st.pBufPtr < cfg.maxPacketSize) (hb : b ≠ 0x7D) :
    processData cfg st b =
      { st with unEscaping := false,
                pBuf := bufStore st.pBuf st.pBufPtr (b ^^^ 0x20),
                pBufPtr := (st.pBufPtr + 1) % buffer_size_t cfg } := by
  rw [processData_data cfg st b hb (by simp [hU]), if_pos hM]
  simp [hU, escapeXOR]

/-- The escape marker after an escape marker changes nothing. -/
theorem processData_pending_escape {E : CRCTYPE} (cfg : Config) (st : State E)
    (hU : st.unEscaping = true) : processData cfg st 0x7D = st := by
  obtain ⟨pBuf, incrc, outcrc, pBufPtr, pSize, lastPacketSize, inAddressField,
    inControlField, txSeqNum, rxNextSeqNum, unEscaping, forceEscaping, inPacket, serial,
    handled⟩ := st
  simp only at hU
  subst hU
  simp [processData, escapeFlag]

/-- A data byte of the wire format that arrives when the buffer is full is dropped. -/
theorem feed_enc_full {E : CRCTYPE} (cfg : Config) (st : State E) (b : Nat)
    (hU : st.unEscaping = false) (hfull : ¬ st.pBufPtr < cfg.maxPacketSize) :
    feed cfg st (enc false b) = st := by
  obtain ⟨pBuf, incrc, outcrc, pBufPtr, pSize, lastPacketSize, inAddressField,
    inControlField, txSeqNum, rxNextSeqNum, unEscaping, forceEscaping, inPacket, serial,
    handled⟩ := st
  simp only at hU hfull
  subst hU
  by_cases h1 : b = 0x7E
  · subst h1
    simp [enc, feed, processData, escapeFlag, frameFlag, escapeXOR, hfull]
  · by_cases h2 : b = 0x7D
    · subst h2
      simp [enc, feed, processData, escapeFlag, frameFlag, escapeXOR, hfull]
    · simp [enc, feed, processData, escapeFlag, frameFlag, escapeXOR, hfull, h1, h2]

theorem feed_encs_full {E : CRCTYPE} (cfg : Config) (ds : List Nat) (st : State E)
    (hU : st.unEscaping = false) (hfull : ¬ st.pBufPtr < cfg.maxPacketSize) :
    feed cfg st (ds.flatMap (enc false)) = st := by
  induction ds with
  | nil => rfl
  | cons b ds ih => rw [List.flatMap_cons, feed_append, feed_enc_full cfg st b hU hfull, ih]

/-- A frame with more data bytes than the capacity is processed like the frame made of
its first `maxPacketSize` data bytes: the bytes beyond the capacity leave no trace. -/
theorem feed_overrun_frame {E : CRCTYPE} (cfg : Config) (st : State E) (ds : List Nat)
    (hI : st.inPacket = false) (hU : st.unEscaping = false)
    (hR : cfg.maxPacketSize < buffer_size_t cfg) (hlen : cfg.maxPacketSize < ds.length) :
    feed cfg st ([0x7E] ++ ds.flatMap (enc false) ++ [0x7E]) =
      feed cfg st ([0x7E] ++ (ds.take cfg.maxPacketSize).flatMap (enc false) ++ [0x7E]) := by
  have hopen : processData cfg st 0x7E =
      { st with pBufPtr := 0, inPacket := true, incrc := E.reset } := by
    simp [processData, escapeFlag, frameFlag, hI, hU]
  have htake : (ds.take cfg.maxPacketSize).length = cfg.maxPacketSize := by
    rw [List.length_take]
    omega
  have h := feed_encs cfg (ds.take cfg.maxPacketSize)
    { st with pBufPtr := 0, inPacket := true, incrc := E.reset } hU
    (by simp only; omega) (by simp only; omega)
  conv_lhs => rw [← List.take_append_drop cfg.maxPacketSize ds]
  rw [List.flatMap_append]
  simp only [feed_append, show feed cfg st [0x7E] = processData cfg st 0x7E from rfl, hopen]
  rw [h, feed_encs_full cfg]
  · exact hU
  · simp only
    omega

/-- A well-formed frame fed to an Idle receiver with no pending unescape: one dispatch,
and the receiver is left Idle, with index 0 and no pending unescape. -/
theorem feed_wellFormedFrame {E : CRCTYPE} (cfg : Config) (st : State E) (s c : Nat)
    (p : List Nat) (hI : st.inPacket = false) (hU : st.unEscaping = false)
    (hM : 5 + p.length ≤ cfg.maxPacketSize) (hR : 5 + p.length < buffer_size_t cfg) :
    (feed cfg st (wellFormedFrame E s c p)).handled =
        st.handled ++ [([c] ++ p, 1 + p.length)] ∧
      (feed cfg st (wellFormedFrame E s c p)).inPacket = false ∧
      (feed cfg st (wellFormedFrame E s c p)).pBufPtr = 0 ∧
      (feed cfg st (wellFormedFrame E s c p)).unEscaping = false := by
  have hc : crc16 E ([s, 0x03, c] ++ p) % 256 + 256 * (crc16 E ([s, 0x03, c] ++ p) / 256) =
      crc16 E ([s, 0x03, c] ++ p) := Nat.mod_add_div _ _
  unfold wellFormedFrame
  rw [feed_frame_body cfg st _ _ _ hI hU (by simp) (by simp; omega) (by simp; omega),
    if_pos hc]
  refine ⟨?_, rfl, rfl, hU⟩
  simp
  omega

/-- Frames fed back to back: one dispatch per frame, in order. -/
theorem feed_frames {E : CRCTYPE} (cfg : Config) (frames : List Frame) (st : State E)
    (hI : st.inPacket = false) (hU : st.unEscaping = false)
    (hfit : ∀ f ∈ frames, Frame.fits cfg f) :
    (feed cfg st (frames.flatMap (Frame.wire E))).handled =
        st.handled ++ frames.map Frame.packet ∧
      (feed cfg st (frames.flatMap (Frame.wire E))).inPacket = false ∧
      (feed cfg st (frames.flatMap (Frame.wire E))).unEscaping = false ∧
      (frames ≠ [] → (feed cfg st (frames.flatMap (Frame.wire E))).pBufPtr = 0) := by
  induction frames using List.reverseRecOn with
  | nil => exact ⟨by simp [feed], hI, hU, fun h => absurd rfl h⟩
  | append_singleton fs f ih =>
    obtain ⟨h1, h2, h3, _⟩ := ih (fun g hg => hfit g (List.mem_append_left _ hg))
    have hf : Frame.fits cfg f := hfit f (by simp)
    obtain ⟨k1, k2, k3, k4⟩ := feed_wellFormedFrame cfg
      (feed cfg st (fs.flatMap (Frame.wire E))) f.station f.command f.payload h2 h3 hf.1 hf.2
    rw [List.flatMap_append, feed_append]
    simp only [List.flatMap_cons, List.flatMap_nil, List.append_nil, Frame.wire]
    refine ⟨?_, k2, k4, fun _ => k3⟩
    rw [k1, h1]
    simp [Frame.packet]

/-- A boundary marker that finds the receiver InFrame with an empty buffer and no pending
unescape changes nothing. -/
theorem processData_boundary_empty {E : CRCTYPE} (cfg : Config) (st : State E)
    (hI : st.inPacket = true) (hU : st.unEscaping = false) (h0 : st.pBufPtr = 0) :
    processData cfg st 0x7E = st := by
  have hb := processData_boundary cfg st hU
  unfold frameFlag at hb
  rw [hb, if_pos hI]
  simp [h0]

/-- After one or more boundary markers an Idle receiver is InFrame with index 0; apart
from that only `incrc` has changed. -/
theorem feed_boundaries {E : CRCTYPE} (cfg : Config) (k : Nat) (st : State E)
    (hI : st.inPacket = false) (hU : st.unEscaping = false) :
    feed cfg st (List.replicate (k + 1) 0x7E) =
      { st with pBufPtr := 0, inPacket := true, incrc := E.reset } := by
  induction k with
  | zero =>
    show processData cfg st 0x7E = _
    simp [processData, escapeFlag, frameFlag, hI, hU]
  | succ k ih =>
    rw [List.replicate_succ', feed_append, ih]
    show processData cfg _ 0x7E = _
    exact processData_boundary_empty cfg _ rfl hU rfl

/-- The sequence counter after `sendPostamble`, as a remainder. -/
theorem txSeqNum_step (n : Nat) : ((n + 1) % 256) &&& 0x7 = (n + 1) % 8 := by
  have h := Nat.and_pow_two_sub_one_eq_mod ((n + 1) % 256) 3
  simp only [Nat.reducePow, Nat.add_one_sub_one] at h
  rw [h]
  omega

theorem call_txSeqNum {E : CRCTYPE} (cfg : Config) (st : State E) (c : Call) :
    (call cfg st c).txSeqNum = (st.txSeqNum + framesSent [c]) % 8 ∨
      ((call cfg st c).txSeqNum = st.txSeqNum ∧ framesSent [c] = 0) := by
  cases c with
  | processData b =>
    right
    refine ⟨?_, rfl⟩
    show (processData cfg st b).txSeqNum = st.txSeqNum
    by_cases hE : b = escapeFlag
    · simp [processData, hE]
    · by_cases hF : b = frameFlag ∧ st.unEscaping = false
      · obtain ⟨hb, hU⟩ := hF
        subst hb
        rw [processData_boundary cfg st hU]
        split
        · split
          · show (preProcessPacket st).txSeqNum = st.txSeqNum
            rw [preProcessPacket_eq]
            split
            · rfl
            · split <;> rfl
          · rfl
        · rfl
      · rw [processData_data cfg st b hE hF]
        split <;> rfl
  | sendPacket c p =>
    left
    show (sendPacket cfg st c p).txSeqNum = _
    rw [sendPacket_eq]
    exact txSeqNum_step st.txSeqNum
  | sendCommandPacket c p =>
    left
    show (sendCommandPacket cfg st c p).txSeqNum = _
    rw [sendCommandPacket_eq_sendPacket, sendPacket_eq]
    exact txSeqNum_step st.txSeqNum
  | setForceEscape a => exact Or.inr ⟨rfl, rfl⟩

theorem framesSent_cons (c : Call) (cs : List Call) :
    framesSent (c :: cs) = framesSent [c] + framesSent cs := by
  cases c <;> simp [framesSent] <;> omega

/-- The transmit sequence counter after any sequence of calls. -/
theorem run_txSeqNum {E : CRCTYPE} (cfg : Config) (cs : List Call) (st : State E)
    (h : st.txSeqNum ≤ 7) :
    (run cfg st cs).txSeqNum = (st.txSeqNum + framesSent cs) % 8 := by
  induction cs generalizing st with
  | nil =>
    show st.txSeqNum = (st.txSeqNum + 0) % 8
    omega
  | cons c cs ih =>
    show (run cfg (call cfg st c) cs).txSeqNum = _
    rw [framesSent_cons]
    rcases call_txSeqNum cfg st c with h1 | ⟨h1, h2⟩
    · rw [ih (call cfg st c) (by rw [h1]; omega), h1]
      omega
    · rw [ih (call cfg st c) (by rw [h1]; exact h), h1, h2]
      simp

theorem call_rxNextSeqNum {E : CRCTYPE} (cfg : Config) (st : State E) (c : Call) :
    (call cfg st c).rxNextSeqNum = st.rxNextSeqNum := by
  cases c with
  | processData b =>
    show (processData cfg st b).rxNextSeqNum = st.rxNextSeqNum
    by_cases hE : b = escapeFlag
    · simp [processData, hE]
    · by_cases hF : b = frameFlag ∧ st.unEscaping = false
      · obtain ⟨hb, hU⟩ := hF
        subst hb
        rw [processData_boundary cfg st hU]
        split
        · split
          · show (preProcessPacket st).rxNextSeqNum = st.rxNextSeqNum
            rw [preProcessPacket_eq]
            split
            · rfl
            · split <;> rfl
          · rfl
        · rfl
      · rw [processData_data cfg st b hE hF]
        split <;> rfl
  | sendPacket c p =>
    show (sendPacket cfg st c p).rxNextSeqNum = _
    rw [sendPacket_eq]
  | sendCommandPacket c p =>
    show (sendCommandPacket cfg st c p).rxNextSeqNum = _
    rw [sendCommandPacket_eq_sendPacket, sendPacket_eq]
  | setForceEscape a => rfl

theorem run_rxNextSeqNum {E : CRCTYPE} (cfg : Config) (cs : List Call) (st : State E) :
    (run cfg st cs).rxNextSeqNum = st.rxNextSeqNum := by
  induction cs generalizing st with
  | nil => rfl
  | cons c cs ih =>
    show (run cfg (call cfg st c) cs).rxNextSeqNum = _
    rw [ih, call_rxNextSeqNum]

/-- The index type has one byte up to a maximum packet size of 511, two bytes beyond. -/
theorem number_of_bytes_eq (n : Nat) : number_of_bytes n = if n ≤ 511 then 1 else 2 := by
  unfold number_of_bytes
  by_cases h : n ≤ 511
  · rw [if_pos h, if_neg (by omega)]
  · rw [if_neg h, if_pos (by omega)]

/-- What the receiver makes of the bytes `sendByte` writes for `b`, under either setting
of forced escaping, when nothing is pending and there is room: `b` is stored, unless
escaping is forced and `b` is `0x5D`. -/
theorem feed_enc_any {E : CRCTYPE} (cfg : Config) (st : State E) (fe : Bool) (b : Nat)
    (hb : ¬ (fe = true ∧ b = 0x5D))
    (hU : st.unEscaping = false) (hM : st.pBufPtr < cfg.maxPacketSize) :
    feed cfg st (enc fe b) =
      { st with pBuf := bufStore st.pBuf st.pBufPtr b,
                pBufPtr := (st.pBufPtr + 1) % buffer_size_t cfg } := by
  have hx : b ^^^ 0x20 ^^^ 0x20 = b := Nat.xor_cancel_right 0x20 b
  by_cases hc : b = 0x7E ∨ b = 0x7D ∨ fe = true
  · have he : enc fe b = [0x7D, b ^^^ 0x20] := by simp [enc, hc]
    have hne : b ^^^ 0x20 ≠ 0x7D := by
      intro h
      have h5 : b = 0x5D := by
        rw [h] at hx
        exact hx.symm
      rcases hc with h1 | h1 | h1
      · omega
      · omega
      · exact hb ⟨h1, h5⟩
    rw [he]
    show processData cfg (processData cfg st 0x7D) (b ^^^ 0x20) = _
    have h1 : processData cfg st 0x7D = { st with unEscaping := true } := by
      simp [processData, escapeFlag]
    have h2 := processData_pending cfg ({ st with unEscaping := true } : State E)
      (b ^^^ 0x20) rfl hM hne
    rw [h1, h2, hx]
    simp only [State.mk.injEq, true_and, and_true]
    exact hU.symm
  · have he : enc fe b = [b] := by simp [enc, hc]
    have h1 : b ≠ 0x7E := fun h => hc (Or.inl h)
    have h2 : b ≠ 0x7D := fun h => hc (Or.inr (Or.inl h))
    rw [he]
    show processData cfg st b = _
    rw [processData_data cfg st b h2 (fun h => h1 h.1), if_pos hM]
    obtain ⟨pBuf, incrc, outcrc, pBufPtr, pSize, lastPacketSize, inAddressField,
      inControlField, txSeqNum, rxNextSeqNum, unEscaping, forceEscaping, inPacket, serial,
      handled⟩ := st
    simp only at hU
    subst hU
    simp

/-- Data bytes other than the two markers travel unescaped. -/
theorem flatMap_enc_plain (ds : List Nat) (h : ∀ b ∈ ds, b ≠ 0x7E ∧ b ≠ 0x7D) :
    ds.flatMap (enc false) = ds := by
  induction ds with
  | nil => rfl
  | cons b ds ih =>
    have hb := h b (by simp)
    rw [List.flatMap_cons, ih (fun x hx => h x (List.mem_cons_of_mem _ hx))]
    simp [enc, hb.1, hb.2]

/-- When the index type cannot hold `maxPacketSize`, the index wraps: after an opening
boundary marker and as many plain data bytes as the index type has values, less one,
the index is at its largest value, and one more data byte takes it to 0. -/
theorem feed_index_wrap {E : CRCTYPE} (cfg : Config) (st : State E) (ds : List Nat)
    (b : Nat) (hI : st.inPacket = false) (hU : st.unEscaping = false)
    (hplain : ∀ x ∈ ds, x ≠ 0x7E ∧ x ≠ 0x7D) (hb : b ≠ 0x7E ∧ b ≠ 0x7D)
    (hlen : ds.length + 1 = buffer_size_t cfg) (hcap : buffer_size_t cfg ≤ cfg.maxPacketSize) :
    (feed cfg st (0x7E :: ds)).pBufPtr = ds.length ∧
      (feed cfg st (0x7E :: (ds ++ [b]))).pBufPtr = 0 := by
  have hopen : processData cfg st 0x7E =
      { st with pBufPtr := 0, inPacket := true, incrc := E.reset } := by
    simp [processData, escapeFlag, frameFlag, hI, hU]
  have h := feed_encs cfg ds
    { st with pBufPtr := 0, inPacket := true, incrc := E.reset } hU
    (by simp only; omega) (by simp only; omega)
  rw [flatMap_enc_plain ds hplain] at h
  have h1 : feed cfg st (0x7E :: ds) =
      { st with pBuf := storeList st.pBuf 0 ds, pBufPtr := 0 + ds.length,
                inPacket := true, incrc := E.reset } := by
    rw [feed_cons, hopen, h]
  refine ⟨by rw [h1]; simp, ?_⟩
  rw [← List.cons_append, feed_append, h1]
  show (processData cfg _ b).pBufPtr = 0
  rw [processData_data cfg _ b hb.2 (fun hh => hb.1 hh.1), if_pos (by simp only; omega)]
  simp only [Nat.zero_add, hlen, Nat.mod_self]

/-- The raw buffer view after a dispatch of `N` buffered bytes: offset 3, size `N - 4`
(in the index type), so it ends at position `N - 1`, one past the dispatched region. -/
theorem getRawBuffer_after_dispatch {E : CRCTYPE} (cfg : Config) (st : State E)
    (hI : st.inPacket = true) (hU : st.unEscaping = false) (h4 : 4 ≤ st.pBufPtr)
    (hc : storedCrc st = computedCrc st) :
    getRawBuffer cfg (processData cfg st 0x7E) =
      { buffer := 3, size := (st.pBufPtr - 4) % buffer_size_t cfg } := by
  have h0 : st.pBufPtr ≠ 0 := by omega
  have hb := processData_boundary cfg st hU
  unfold frameFlag at hb
  have hc2 := hc
  unfold storedCrc computedCrc at hc2
  rw [hb, if_pos hI, if_pos h0, preProcessPacket_eq, if_neg (by omega), if_pos hc2]
  rfl

/-- The transport log of one `sendPacket`, for every CRC class: the frame layout of the
wire format, with the trailer being the two bytes of the CRC16 of station id, control
byte, command, command, payload. -/
theorem sendPacket_serial {E : CRCTYPE} (cfg : Config) (st : State E) (c : Nat)
    (p : List Nat) :
    (sendPacket cfg st c p).serial =
      st.serial ++ [SerialOp.write 0x7E] ++
        (enc st.forceEscaping (cfg.stationId % 256) ++ enc st.forceEscaping 0x03 ++
          enc st.forceEscaping c ++ p.flatMap (enc st.forceEscaping) ++
          enc st.forceEscaping (crc16 E ([cfg.stationId % 256, 0x03, c, c] ++ p) % 256) ++
          enc st.forceEscaping (crc16 E ([cfg.stationId % 256, 0x03, c, c] ++ p) / 256)).map
          SerialOp.write ++
        [SerialOp.write 0x7E, SerialOp.flush] := by
  rw [sendPacket_eq]
  simp [frameBody, List.flatMap_append, List.flatMap_cons]

theorem storeList_append (a b : List Nat) (f : Nat → Nat) (n : Nat) :
    storeList f n (a ++ b) = storeList (storeList f n a) (n + a.length) b := by
  induction a generalizing f n with
  | nil => rfl
  | cons x xs ih =>
    show storeList (bufStore f n x) (n + 1) (xs ++ b) =
      storeList (storeList (bufStore f n x) (n + 1) xs) (n + (xs.length + 1)) b
    rw [ih, show n + 1 + xs.length = n + (xs.length + 1) by omega]

theorem buffer_size_t_pos (cfg : Config) : 0 < buffer_size_t cfg := by
  unfold buffer_size_t best_storage_class
  split <;> decide

/-- A frame with exactly as many data bytes as the index type has values, in a buffer
that holds them: the last data byte wraps the index to 0, so the closing boundary
marker finds an empty buffer; nothing is dispatched and the receiver is left InFrame. -/
theorem feed_frame_wrap {E : CRCTYPE} (cfg : Config) (st : State E) (ds : List Nat)
    (hI : st.inPacket = false) (hU : st.unEscaping = false)
    (hlen : ds.length = buffer_size_t cfg) (hcap : buffer_size_t cfg ≤ cfg.maxPacketSize) :
    feed cfg st ([0x7E] ++ ds.flatMap (enc false) ++ [0x7E]) =
      { st with pBuf := storeList st.pBuf 0 ds, pBufPtr := 0, inPacket := true,
                incrc := E.reset } := by
  have hpos := buffer_size_t_pos cfg
  rcases List.eq_nil_or_concat ds with rfl | ⟨init, last, rfl⟩
  · rw [List.length_nil] at hlen
    omega
  · rw [List.concat_eq_append] at hlen ⊢
    simp only [List.length_append, List.length_cons, List.length_nil] at hlen
    have hopen : processData cfg st 0x7E =
        { st with pBufPtr := 0, inPacket := true, incrc := E.reset } := by
      simp [processData, escapeFlag, frameFlag, hI, hU]
    have h := feed_encs cfg init
      { st with pBufPtr := 0, inPacket := true, incrc := E.reset } hU
      (by simp only; omega) (by simp only; omega)
    have h2 := feed_enc_any cfg
      ({ st with pBuf := storeList st.pBuf 0 init, pBufPtr := 0 + init.length,
                 inPacket := true, incrc := E.reset } : State E) false last
      (by simp) hU (by simp only; omega)
    have hmod : (0 + init.length + 1) % buffer_size_t cfg = 0 := by
      rw [Nat.zero_add, hlen, Nat.mod_self]
    rw [feed_append, feed_append,
      show feed cfg st [0x7E] = processData cfg st 0x7E from rfl, hopen,
      List.flatMap_append, feed_append, h]
    simp only [List.flatMap_cons, List.flatMap_nil, List.append_nil]
    have hclose : ∀ S : State E, S.inPacket = true → S.unEscaping = false →
        S.pBufPtr = 0 → feed cfg S [0x7E] = S :=
      fun S a b c => processData_boundary_empty cfg S a b c
    rw [h2, hclose]
    · simp only [hmod, storeList_append, storeList]
    · rfl
    · exact hU
    · exact hmod

/-- A well-formed frame of exactly as many bytes as the index type has values is not
dispatched, although it fits the buffer. -/
theorem feed_wellFormedFrame_wrap {E : CRCTYPE} (cfg : Config) (st : State E) (s c : Nat)
    (p : List Nat) (hI : st.inPacket = false) (hU : st.unEscaping = false)
    (hlen : 5 + p.length = buffer_size_t cfg) (hcap : buffer_size_t cfg ≤ cfg.maxPacketSize) :
    feed cfg st (wellFormedFrame E s c p) =
      { st with
        pBuf := storeList st.pBuf 0 ([s, 0x03, c] ++ p ++
          [crc16 E ([s, 0x03, c] ++ p) % 256, crc16 E ([s, 0x03, c] ++ p) / 256]),
        pBufPtr := 0, inPacket := true, incrc := E.reset } := by
  unfold wellFormedFrame
  exact feed_frame_wrap cfg st _ hI hU (by simp; omega) hcap

/-- A run of one or more boundary markers before the rest of a stream acts, on an Idle
receiver, like a single one. -/
theorem feed_boundaries_then {E : CRCTYPE} (cfg : Config) (k : Nat) (st : State E)
    (l : List Nat) (hI : st.inPacket = false) (hU : st.unEscaping = false) :
    feed cfg st (List.replicate (k + 1) 0x7E ++ l) = feed cfg st (0x7E :: l) := by
  rw [feed_append, feed_boundaries cfg k st hI hU, feed_cons,
    show processData cfg st 0x7E = feed cfg st (List.replicate (0 + 1) 0x7E) from rfl,
    feed_boundaries cfg 0 st hI hU]

/-- A well-formed frame fed to a receiver that is already InFrame with an empty buffer
and a freshly reset incoming accumulator: its opening boundary marker changes nothing
and the frame is dispatched. -/
theorem feed_wellFormedFrame_armed {E : CRCTYPE} (cfg : Config) (st : State E) (s c : Nat)
    (p : List Nat) (hI : st.inPacket = true) (hU : st.unEscaping = false)
    (h0 : st.pBufPtr = 0) (hcrc : st.incrc = E.reset)
    (hM : 5 + p.length ≤ cfg.maxPacketSize) (hR : 5 + p.length < buffer_size_t cfg) :
    (feed cfg st (wellFormedFrame E s c p)).handled =
        st.handled ++ [([c] ++ p, 1 + p.length)] ∧
      (feed cfg st (wellFormedFrame E s c p)).inPacket = false := by
  have hw : wellFormedFrame E s c p = 0x7E :: (wellFormedFrame E s c p).tail := by
    simp [wellFormedFrame]
  have hidle : processData cfg ({ st with inPacket := false } : State E) 0x7E = st := by
    obtain ⟨pBuf, incrc, outcrc, pBufPtr, pSize, lastPacketSize, inAddressField,
      inControlField, txSeqNum, rxNextSeqNum, unEscaping, forceEscaping, inPacket, serial,
      handled⟩ := st
    simp only at hI hU h0 hcrc
    subst hI hU h0 hcrc
    simp [processData, escapeFlag, frameFlag]
  have e : feed cfg st (wellFormedFrame E s c p) =
      feed cfg ({ st with inPacket := false } : State E) (wellFormedFrame E s c p) := by
    rw [hw, feed_cons, feed_cons, processData_boundary_empty cfg st hI hU h0, hidle]
  obtain ⟨k1, k2, _, _⟩ := feed_wellFormedFrame cfg ({ st with inPacket := false } : State E)
    s c p rfl hU hM hR
  rw [e]
  exact ⟨k1, k2⟩

/-- Frames back to back, each fitting the buffer and the range of the index type, fed
to a receiver that is Idle with no pending unescape: one dispatch per frame, in order,
and after each frame the index is 0, the receiver Idle and no unescape pending. -/
theorem back_to_back_frames_in_range {E : CRCTYPE} (cfg : Config) (st : State E)
    (frames : List Frame) (hI : st.inPacket = false) (hU : st.unEscaping = false)
    (hfit : ∀ f ∈ frames, Frame.fits cfg f) :
    (feed cfg st (frames.flatMap (Frame.wire E))).handled =
        st.handled ++ frames.map Frame.packet ∧
      (∀ k : Nat, 1 ≤ k → k ≤ frames.length →
        (feed cfg st ((frames.take k).flatMap (Frame.wire E))).handled =
            st.handled ++ (frames.take k).map Frame.packet ∧
          (feed cfg st ((frames.take k).flatMap (Frame.wire E))).pBufPtr = 0 ∧
          (feed cfg st ((frames.take k).flatMap (Frame.wire E))).inPacket = false ∧
          (feed cfg st ((frames.take k).flatMap (Frame.wire E))).unEscaping = false) := by
  refine ⟨(feed_frames cfg frames st hI hU hfit).1, ?_⟩
  intro k hk1 hk2
  obtain ⟨h1, h2, h3, h4⟩ := feed_frames cfg (frames.take k) st hI hU
    (fun f hf => hfit f (List.mem_of_mem_take hf))
  have hne : frames.take k ≠ [] := by
    intro h
    have hl : (frames.take k).length = 0 := by rw [h]; rfl
    rw [List.length_take] at hl
    omega
  exact ⟨h1, h4 hne, h2, h3⟩

/-- After a closing boundary marker whose frame fails validation the handler has not
been invoked and the receiver is Idle with no pending unescape; a well-formed frame
that fits the buffer and the range of the index type is then dispatched. -/
theorem recovery_after_bad_frame_in_range {E : CRCTYPE} (cfg : Config) (st : State E)
    (s c : Nat) (p : List Nat)
    (hI : st.inPacket = true) (hU : st.unEscaping = false) (h1 : 1 ≤ st.pBufPtr)
    (hbad : st.pBufPtr < 4 ∨ storedCrc st ≠ computedCrc st)
    (hM : 5 + p.length ≤ cfg.maxPacketSize) (hR : 5 + p.length < buffer_size_t cfg) :
    (processData cfg st 0x7E).handled = st.handled ∧
      (processData cfg st 0x7E).inPacket = false ∧
      (processData cfg st 0x7E).unEscaping = false ∧
      (feed cfg (processData cfg st 0x7E) (wellFormedFrame E s c p)).handled =
        st.handled ++ [([c] ++ p, 1 + p.length)] := by
  obtain ⟨_, k2, k3⟩ := processData_close cfg st hI hU h1
  have hgate : ¬ ((0x7E : Nat) = 0x7E ∧ st.unEscaping = false ∧ st.inPacket = true ∧
      4 ≤ st.pBufPtr ∧ storedCrc st = computedCrc st) := by
    intro h
    rcases hbad with hb | hb
    · omega
    · exact hb h.2.2.2.2
  have k1 : (processData cfg st 0x7E).handled = st.handled := by
    rw [processData_handled, if_neg hgate, List.append_nil]
  refine ⟨k1, k2, k3, ?_⟩
  rw [(feed_wellFormedFrame cfg (processData cfg st 0x7E) s c p k2 k3 hM hR).1, k1]

/-- A boundary marker found InFrame with an empty buffer changes nothing; one or more
boundary markers, then the body and the closing marker of a well-formed frame that
fits the buffer and the range of the index type, dispatch that frame. -/
theorem boundary_while_empty_in_range {E : CRCTYPE} (cfg : Config) (st : State E) :
    (st.inPacket = true → st.unEscaping = false → st.pBufPtr = 0 →
      processData cfg st 0x7E = st ∧
        (processData cfg st 0x7E).handled = st.handled ∧
        (processData cfg st 0x7E).inPacket = true ∧
        (processData cfg st 0x7E).pBufPtr = 0 ∧
        (processData cfg st 0x7E).unEscaping = false) ∧
      (st.inPacket = false → st.unEscaping = false →
        ∀ (k s c : Nat) (p : List Nat), 1 ≤ k →
          5 + p.length ≤ cfg.maxPacketSize → 5 + p.length < buffer_size_t cfg →
          (feed cfg st
              (List.replicate k 0x7E ++ (wellFormedFrame E s c p).tail)).handled =
              st.handled ++ [([c] ++ p, 1 + p.length)] ∧
            (feed cfg st
              (List.replicate k 0x7E ++ (wellFormedFrame E s c p).tail)).inPacket =
              false) := by
  constructor
  · intro hI hU h0
    have h := processData_boundary_empty cfg st hI hU h0
    rw [h]
    exact ⟨rfl, rfl, hI, h0, hU⟩
  · intro hI hU k s c p hk hM hR
    obtain ⟨j, rfl⟩ : ∃ j, k = j + 1 := ⟨k - 1, by omega⟩
    have hw : wellFormedFrame E s c p = 0x7E :: (wellFormedFrame E s c p).tail := by
      simp [wellFormedFrame]
    have e : feed cfg st (List.replicate (j + 1) 0x7E ++ (wellFormedFrame E s c p).tail) =
        feed cfg st (wellFormedFrame E s c p) := by
      conv_rhs => rw [hw]
      rw [feed_append, feed_boundaries cfg j st hI hU, feed_cons,
        show processData cfg st 0x7E = feed cfg st (List.replicate (0 + 1) 0x7E) from rfl,
        feed_boundaries cfg 0 st hI hU]
    rw [e]
    obtain ⟨h1, h2, _, _⟩ := feed_wellFormedFrame cfg st s c p hI hU hM hR
    exact ⟨h1, h2⟩

/-- A well-formed frame that wraps the index, followed by a well-formed frame within
the range of the index type: only the second one is dispatched. -/
theorem feed_wrap_then_frame {E : CRCTYPE} (cfg : Config) (st : State E)
    (s1 c1 : Nat) (p1 : List Nat) (s2 c2 : Nat) (p2 : List Nat)
    (hI : st.inPacket = false) (hU : st.unEscaping = false)
    (hlen : 5 + p1.length = buffer_size_t cfg) (hcap : buffer_size_t cfg ≤ cfg.maxPacketSize)
    (hM : 5 + p2.length ≤ cfg.maxPacketSize) (hR : 5 + p2.length < buffer_size_t cfg) :
    (feed cfg st (wellFormedFrame E s1 c1 p1 ++ wellFormedFrame E s2 c2 p2)).handled =
      st.handled ++ [([c2] ++ p2, 1 + p2.length)] := by
  have h1 := feed_wellFormedFrame_wrap cfg st s1 c1 p1 hI hU hlen hcap
  have h2 := feed_wellFormedFrame_armed cfg (feed cfg st (wellFormedFrame E s1 c1 p1))
    s2 c2 p2 (by rw [h1]) (by rw [h1]; exact hU) (by rw [h1]) (by rw [h1]) hM hR
  rw [feed_append, h2.1, h1]

/-! ## The claims -/

/-- C1 (round trip), evaluated on the code: the stream `sendPacket` writes for station
id 0x05, command 0x10 and payload [0x01, 0x02] is 7E 05 03 10 01 02 3A 82 7E; fed byte
by byte to an Idle receiver of capacity 16 it never reaches the handler and leaves the
receiver Idle with the 7 frame bytes still counted by the index. -/
theorem C1_round_trip_not_dispatched :
    (feed exampleConfig exampleState
        (sendPacketBytes exampleConfig exampleState 0x10 [0x01, 0x02])).handled = [] ∧
      (feed exampleConfig exampleState
        (sendPacketBytes exampleConfig exampleState 0x10 [0x01, 0x02])).inPacket = false ∧
      (feed exampleConfig exampleState
        (sendPacketBytes exampleConfig exampleState 0x10 [0x01, 0x02])).pBufPtr = 7 := by
  decide

/-- C2 (receiver correctness on a well-formed frame): for every station id s, command c
and payload p with 5 + |p| at most maxPacketSize and below the number of values of the
index type, feeding the well-formed frame of s, c and p to a receiver that is Idle with
no pending unescape, whatever its index and buffer contents, invokes the handler exactly
once, with the bytes [c] ++ p and the length 1 + |p|, and leaves the receiver Idle with
index 0. -/
theorem C2_wellformed_frame_dispatched {E : CRCTYPE} (cfg : Config) (st : State E)
    (s c : Nat) (p : List Nat)
    (hI : st.inPacket = false) (hU : st.unEscaping = false)
    (hM : 5 + p.length ≤ cfg.maxPacketSize) (hR : 5 + p.length < buffer_size_t cfg) :
    (feed cfg st (wellFormedFrame E s c p)).handled =
        st.handled ++ [([c] ++ p, 1 + p.length)] ∧
      (feed cfg st (wellFormedFrame E s c p)).inPacket = false ∧
      (feed cfg st (wellFormedFrame E s c p)).pBufPtr = 0 := by
  have hk : crc16 E ([s, 0x03, c] ++ p) < 65536 := Nat.mod_lt _ (by decide)
  have hc : crc16 E ([s, 0x03, c] ++ p) % 256 + 256 * (crc16 E ([s, 0x03, c] ++ p) / 256) =
      crc16 E ([s, 0x03, c] ++ p) := Nat.mod_add_div _ _
  unfold wellFormedFrame
  rw [feed_frame_body cfg st _ _ _ hI hU (by simp) (by simp; omega) (by simp; omega),
    if_pos hc]
  refine ⟨?_, rfl, rfl⟩
  simp
  omega

/-- Witness of C2, the worked example: capacity 16, s = 0x05, c = 0x10, p = [0x01, 0x02]
gives the handler the bytes [0x10, 0x01, 0x02] and the length 3. -/
theorem C2_wellformed_frame_dispatched_witness :
    (feed exampleConfig exampleState
        (wellFormedFrame CRC16_rfc1549 0x05 0x10 [0x01, 0x02])).handled =
        [([0x10, 0x01, 0x02], 3)] ∧
      (feed exampleConfig exampleState
        (wellFormedFrame CRC16_rfc1549 0x05 0x10 [0x01, 0x02])).inPacket = false ∧
      (feed exampleConfig exampleState
        (wellFormedFrame CRC16_rfc1549 0x05 0x10 [0x01, 0x02])).pBufPtr = 0 :=
  C2_wellformed_frame_dispatched exampleConfig exampleState 0x05 0x10 [0x01, 0x02]
    rfl rfl (by decide) (by decide)

/-- C3 (dispatch gate): when a closing boundary byte is processed InFrame, not pending,
with N at least 1 buffered bytes, the handler log grows by exactly one entry, the bytes
buf[2 .. N-2) with the length N - 4, if N is at least 4 and buf[N-2] + 256 * buf[N-1]
is the CRC16 of buf[0 .. N-2), and it does not grow otherwise. Consequently, over any
input stream fed from any state, every entry the handler log gains was dispatched by a
boundary byte that found the receiver InFrame, not pending, with at least 4 buffered
bytes whose stored CRC equals the recomputed one. -/
theorem C3_dispatch_gate {E : CRCTYPE} (cfg : Config) (st : State E) :
    (st.inPacket = true → st.unEscaping = false → 1 ≤ st.pBufPtr →
      (processData cfg st 0x7E).handled =
        st.handled ++
          (if 4 ≤ st.pBufPtr ∧
              st.pBuf (st.pBufPtr - 2) + 256 * st.pBuf (st.pBufPtr - 1) =
                crc16 E (bufBytes st.pBuf 0 (st.pBufPtr - 2))
            then [(bufBytes st.pBuf 2 (st.pBufPtr - 4), st.pBufPtr - 4)] else [])) ∧
      (∀ bs : List Nat, ∃ es, (feed cfg st bs).handled = st.handled ++ es ∧
        ∀ e ∈ es, ∃ pre post, bs = pre ++ 0x7E :: post ∧
          (feed cfg st pre).inPacket = true ∧ (feed cfg st pre).unEscaping = false ∧
          4 ≤ (feed cfg st pre).pBufPtr ∧
          storedCrc (feed cfg st pre) = computedCrc (feed cfg st pre) ∧
          e = dispatchedPacket (feed cfg st pre)) := by
  refine ⟨?_, fun bs => feed_handled cfg bs st⟩
  intro hI hU _
  rw [processData_handled]
  simp [hI, hU, storedCrc, computedCrc, dispatchedPacket]

/-- Witness of C3: the receiver holds the 7 bytes 05 03 10 01 02 B1 73 of a frame whose
CRC matches, and the closing boundary byte dispatches 10 01 02 with length 3. -/
theorem C3_dispatch_gate_witness :
    (processData exampleConfig
        (feed exampleConfig exampleState [0x7E, 0x05, 0x03, 0x10, 0x01, 0x02, 0xB1, 0x73])
        0x7E).handled = [([0x10, 0x01, 0x02], 3)] :=
  (C3_dispatch_gate exampleConfig
    (feed exampleConfig exampleState [0x7E, 0x05, 0x03, 0x10, 0x01, 0x02, 0xB1, 0x73])).1
    rfl rfl (by decide)

/-- C4 (transmitter CRC coverage), evaluated on the code: for station id 0x05, command
0x10 and payload [0x01, 0x02] the outgoing accumulator is given the bytes
05 03 10 10 01 02 between its reset and the final get, the command byte twice, and with
the RFC 1549 check sequence the trailer bytes on the wire are 3A 82, the two bytes of
CRC16 of 05 03 10 10 01 02, whereas CRC16 of 05 03 10 01 02 is 0x73B1. -/
theorem C4_command_fed_twice :
    (sendPacket ⟨16, 0x05⟩ (initState crcTrace [] []) 0x10 [0x01, 0x02]).outcrc
        = [0x05, 0x03, 0x10, 0x10, 0x01, 0x02] ∧
      sendPacketBytes ⟨16, 0x05⟩
          (initState CRC16_rfc1549 CRC16_rfc1549.reset CRC16_rfc1549.reset) 0x10 [0x01, 0x02]
        = [0x7E, 0x05, 0x03, 0x10, 0x01, 0x02, 0x3A, 0x82, 0x7E] ∧
      crc16 CRC16_rfc1549 [0x05, 0x03, 0x10, 0x10, 0x01, 0x02] = 0x823A ∧
      crc16 CRC16_rfc1549 [0x05, 0x03, 0x10, 0x01, 0x02] = 0x73B1 := by
  refine ⟨?_, ?_, ?_, ?_⟩
  · rfl
  · decide
  · decide
  · decide

/-- Counterexample to C5 as stated: with forced escaping on, station id 0x05, command
0x5E and an empty payload, the stream written is 7E 7D 25 7D 23 7D 7E 7D D1 7D AF 7E,
with the value 0x7E at three positions. -/
theorem C5_counterexample :
    sendPacketBytes exampleConfig (setForceEscape exampleState true) 0x5E [] =
        [0x7E, 0x7D, 0x25, 0x7D, 0x23, 0x7D, 0x7E, 0x7D, 0xD1, 0x7D, 0xAF, 0x7E] ∧
      ¬ flagOnlyAtEnds (sendPacketBytes exampleConfig (setForceEscape exampleState true) 0x5E []) := by
  decide

/-- C5 (no literal boundary marker inside a frame), amended: for every station id,
command and payload, the byte stream written by sendPacket holds the value 0x7E at
exactly two positions, its first and its last byte, when forced escaping is off, and
also when it is on and none of the frame bytes (station id, 0x03, command, payload
bytes, the two CRC bytes) is 0x5E. -/
theorem C5_flag_only_at_ends {E : CRCTYPE} (cfg : Config) (st : State E) (c : Nat)
    (p : List Nat)
    (h : st.forceEscaping = true →
      0x5E ∉ frameBody cfg c p (E.get16 (sendPacket cfg st c p).outcrc)) :
    flagOnlyAtEnds (sendPacketBytes cfg st c p) := by
  rw [sendPacketBytes_eq]
  apply flagOnlyAtEnds_of_mid
  rw [sendPacket_eq] at h
  intro hm
  obtain ⟨b, hb, hbe⟩ := List.mem_flatMap.mp hm
  refine flag_not_mem_enc st.forceEscaping b ?_ hbe
  intro hfe hb5
  exact h hfe (hb5 ▸ hb)

/-- Witness of C5: forced escaping on, command 0x10, payload 7E 7D; no frame byte is
0x5E. -/
theorem C5_flag_only_at_ends_witness :
    flagOnlyAtEnds
      (sendPacketBytes exampleConfig (setForceEscape exampleState true) 0x10 [0x7E, 0x7D]) :=
  C5_flag_only_at_ends exampleConfig (setForceEscape exampleState true) 0x10 [0x7E, 0x7D]
    (by decide)

/-- C6 (wire format), evaluated on the code: for station id 0x05, command 0x10 and
payload [0x01, 0x02], forced escaping off, sendPacket appends to the transport the
writes 7E 05 03 10 01 02 3A 82 7E and one flush. The layout is that of the wire format,
but the trailer 3A 82 is the CRC16 of 05 03 10 10 01 02; the CRC16 of the frame bytes
05 03 10 01 02 is 0x73B1, so the wire format has the trailer B1 73, neither byte of
which needs escaping. -/
theorem C6_trailer_is_not_frame_crc :
    (sendPacket exampleConfig exampleState 0x10 [0x01, 0x02]).serial =
        [SerialOp.write 0x7E, SerialOp.write 0x05, SerialOp.write 0x03,
          SerialOp.write 0x10, SerialOp.write 0x01, SerialOp.write 0x02,
          SerialOp.write 0x3A, SerialOp.write 0x82, SerialOp.write 0x7E, SerialOp.flush] ∧
      crc16 CRC16_rfc1549 [0x05, 0x03, 0x10, 0x10, 0x01, 0x02] = 0x823A ∧
      crc16 CRC16_rfc1549 [0x05, 0x03, 0x10, 0x01, 0x02] % 256 = 0xB1 ∧
      crc16 CRC16_rfc1549 [0x05, 0x03, 0x10, 0x01, 0x02] / 256 = 0x73 := by
  decide

/-- C7 (buffer bound invariant): in every state reachable from a start state (index 0,
Idle, no pending unescape) by calls of processData and of the send operations, the
buffer index is at most maxPacketSize; a call of processData leaves the buffer as it
is or stores one byte at the position of the index, and only if that position is below
maxPacketSize, so that no position at or beyond maxPacketSize is ever written; and a
byte that is not handled as a boundary marker, arriving when the index equals
maxPacketSize, leaves the index and the buffer contents unchanged. -/
theorem C7_buffer_bound {E : CRCTYPE} (cfg : Config) (st : State E)
    (h : Reachable cfg st) :
    st.pBufPtr ≤ cfg.maxPacketSize ∧
      (∀ b : Nat, (processData cfg st b).pBuf = st.pBuf ∨
        (st.pBufPtr < cfg.maxPacketSize ∧
          ∃ v, (processData cfg st b).pBuf = bufStore st.pBuf st.pBufPtr v)) ∧
      (∀ b i : Nat, cfg.maxPacketSize ≤ i → (processData cfg st b).pBuf i = st.pBuf i) ∧
      (∀ b : Nat, st.pBufPtr = cfg.maxPacketSize → ¬ (b = 0x7E ∧ st.unEscaping = false) →
        (processData cfg st b).pBufPtr = st.pBufPtr ∧
          (processData cfg st b).pBuf = st.pBuf) := by
  refine ⟨reachable_pBufPtr_le cfg st h, processData_pBuf cfg st, ?_, ?_⟩
  · intro b i hi
    rcases processData_pBuf cfg st b with h1 | ⟨hlt, v, h1⟩
    · rw [h1]
    · rw [h1, bufStore_other _ _ _ _ (by omega)]
  · intro b hfull hb
    exact processData_full cfg st b hfull hb

/-- Witness of C7: with capacity 2, after the bytes 7E 01 02 the index is 2, and the
next data byte 03 is dropped. -/
theorem C7_buffer_bound_witness :
    (feed ⟨2, 0x05⟩ exampleState [0x7E, 0x01, 0x02]).pBufPtr ≤ 2 ∧
      (processData ⟨2, 0x05⟩ (feed ⟨2, 0x05⟩ exampleState [0x7E, 0x01, 0x02]) 0x03).pBufPtr =
        (feed ⟨2, 0x05⟩ exampleState [0x7E, 0x01, 0x02]).pBufPtr :=
  ⟨(C7_buffer_bound ⟨2, 0x05⟩ (feed ⟨2, 0x05⟩ exampleState [0x7E, 0x01, 0x02])
      (reachable_feed _ _ _ (Reachable.start exampleState rfl rfl rfl))).1,
    ((C7_buffer_bound ⟨2, 0x05⟩ (feed ⟨2, 0x05⟩ exampleState [0x7E, 0x01, 0x02])
      (reachable_feed _ _ _ (Reachable.start exampleState rfl rfl rfl))).2.2.2
        0x03 rfl (by decide)).1⟩

/-- C8 (overrun means discard), evaluated on the code: with capacity 8, an opening
boundary byte, the ten data bytes 05 03 10 01 02 03 92 66 AA BB and a closing boundary
byte, fed to the Idle initial receiver, invoke the handler, with the bytes 10 01 02 03:
the two bytes beyond the capacity are dropped and the first eight pass validation. -/
theorem C8_overrun_frame_dispatched :
    (feed ⟨8, 0x05⟩ exampleState
        [0x7E, 0x05, 0x03, 0x10, 0x01, 0x02, 0x03, 0x92, 0x66, 0xAA, 0xBB, 0x7E]).handled =
      [([0x10, 0x01, 0x02, 0x03], 4)] := by
  decide

/-- C9 (index reset after validation), evaluated on the code: after the short frame
7E 01 7E the index is 1, and after the frame 7E 05 03 10 01 02 00 00 7E, whose CRC does
not match, the index is 7; in both cases the receiver is Idle and the handler was not
invoked. After the well-formed frame 7E 05 03 10 01 02 B1 73 7E the index is 0. -/
theorem C9_index_kept_after_failed_validation :
    ((feed exampleConfig exampleState [0x7E, 0x01, 0x7E]).pBufPtr = 1 ∧
        (feed exampleConfig exampleState [0x7E, 0x01, 0x7E]).inPacket = false ∧
        (feed exampleConfig exampleState [0x7E, 0x01, 0x7E]).handled = []) ∧
      ((feed exampleConfig exampleState
          [0x7E, 0x05, 0x03, 0x10, 0x01, 0x02, 0x00, 0x00, 0x7E]).pBufPtr = 7 ∧
        (feed exampleConfig exampleState
          [0x7E, 0x05, 0x03, 0x10, 0x01, 0x02, 0x00, 0x00, 0x7E]).inPacket = false ∧
        (feed exampleConfig exampleState
          [0x7E, 0x05, 0x03, 0x10, 0x01, 0x02, 0x00, 0x00, 0x7E]).handled = []) ∧
      (feed exampleConfig exampleState
          [0x7E, 0x05, 0x03, 0x10, 0x01, 0x02, 0xB1, 0x73, 0x7E]).pBufPtr = 0 := by
  decide

/-- C10 (unescape of the byte after an escape marker), evaluated on the code: after
7E 7D the receiver has pending-unescape set and index 0, below the capacity 16; the
byte 0x7D then leaves the index at 0, the flag set and position 0 of the buffer
untouched, whereas the byte 0x7E is stored as 0x5E, the index advancing to 1 and the
flag being cleared. -/
theorem C10_escape_marker_after_escape_marker :
    ((feed exampleConfig exampleState [0x7E, 0x7D]).unEscaping = true ∧
        (feed exampleConfig exampleState [0x7E, 0x7D]).pBufPtr = 0) ∧
      ((processData exampleConfig (feed exampleConfig exampleState [0x7E, 0x7D])
          0x7D).pBufPtr = 0 ∧
        (processData exampleConfig (feed exampleConfig exampleState [0x7E, 0x7D])
          0x7D).unEscaping = true ∧
        (processData exampleConfig (feed exampleConfig exampleState [0x7E, 0x7D])
          0x7D).pBuf 0 = 0) ∧
      ((processData exampleConfig (feed exampleConfig exampleState [0x7E, 0x7D])
          0x7E).pBufPtr = 1 ∧
        (processData exampleConfig (feed exampleConfig exampleState [0x7E, 0x7D])
          0x7E).unEscaping = false ∧
        (processData exampleConfig (feed exampleConfig exampleState [0x7E, 0x7D])
          0x7E).pBuf 0 = 0x5E) := by
  decide

/-- C12 (index width policy), evaluated on the code: number_of_bytes is 1 for the
maximum packet sizes 255, 256 and 511 and 2 for 512, so with maxPacketSize = 256 the
index type has the 256 values 0..255 and cannot hold 256; after an opening boundary
byte and 255 data bytes the index is 255, and the next data byte, stored at position
255, wraps it to 0. -/
theorem C12_one_byte_index_up_to_511 :
    (number_of_bytes 255 = 1 ∧ number_of_bytes 256 = 1 ∧ number_of_bytes 511 = 1 ∧
        number_of_bytes 512 = 2) ∧
      buffer_size_t ⟨256, 0x05⟩ = 256 ∧
      (feed ⟨256, 0x05⟩ exampleState (0x7E :: List.replicate 255 0x01)).pBufPtr = 255 ∧
      (feed ⟨256, 0x05⟩ exampleState
        (0x7E :: (List.replicate 255 0x01 ++ [0x01]))).pBufPtr = 0 := by
  have hplain : ∀ x ∈ List.replicate 255 0x01, x ≠ 0x7E ∧ x ≠ 0x7D := by
    intro x hx
    rw [List.eq_of_mem_replicate hx]
    decide
  have h := feed_index_wrap ⟨256, 0x05⟩ exampleState (List.replicate 255 0x01) 0x01 rfl rfl
    hplain (by decide) (by rw [List.length_replicate]; decide) (by decide)
  rw [List.length_replicate] at h
  exact ⟨by decide, by decide, h.1, h.2⟩

/-- C13 (back-to-back frames), evaluated on the code: with maxPacketSize = 300 the
well-formed frame of command 0x10 with a payload of 251 bytes 01 has 256 unescaped
bytes and fits the buffer; fed to the Idle initial receiver and followed by the
well-formed frame of command 0x11 with payload [0x02], it is not dispatched: the
handler is invoked once only, with 11 02. -/
theorem C13_frame_of_256_bytes_lost :
    5 + (List.replicate 251 0x01).length ≤ 300 ∧
      (feed ⟨300, 0x05⟩ exampleState
        ([⟨0x05, 0x10, List.replicate 251 0x01⟩, ⟨0x05, 0x11, [0x02]⟩].flatMap
          (Frame.wire CRC16_rfc1549))).handled = [([0x11, 0x02], 2)] := by
  refine ⟨by rw [List.length_replicate]; decide, ?_⟩
  have h := feed_wrap_then_frame ⟨300, 0x05⟩ exampleState 0x05 0x10
    (List.replicate 251 0x01) 0x05 0x11 [0x02] rfl rfl
    (by rw [List.length_replicate]; decide) (by decide) (by decide) (by decide)
  simp only [List.flatMap_cons, List.flatMap_nil, List.append_nil, Frame.wire]
  rw [h]
  rfl

/-- C14 (recovery after a bad frame), evaluated on the code: with maxPacketSize = 300,
after the short frame 7E 01 7E the handler has not been invoked and the receiver is
Idle with no pending unescape; the well-formed frame of command 0x10 with a payload of
251 bytes 01, which has 256 unescaped bytes and fits the buffer, fed immediately
afterwards, is not dispatched, and the receiver is left InFrame with index 0. -/
theorem C14_frame_of_256_bytes_not_recovered :
    ((feed ⟨300, 0x05⟩ exampleState [0x7E, 0x01, 0x7E]).handled = [] ∧
        (feed ⟨300, 0x05⟩ exampleState [0x7E, 0x01, 0x7E]).inPacket = false ∧
        (feed ⟨300, 0x05⟩ exampleState [0x7E, 0x01, 0x7E]).unEscaping = false) ∧
      (feed ⟨300, 0x05⟩ (feed ⟨300, 0x05⟩ exampleState [0x7E, 0x01, 0x7E])
        (wellFormedFrame CRC16_rfc1549 0x05 0x10 (List.replicate 251 0x01))).handled = [] ∧
      (feed ⟨300, 0x05⟩ (feed ⟨300, 0x05⟩ exampleState [0x7E, 0x01, 0x7E])
        (wellFormedFrame CRC16_rfc1549 0x05 0x10 (List.replicate 251 0x01))).inPacket =
        true ∧
      (feed ⟨300, 0x05⟩ (feed ⟨300, 0x05⟩ exampleState [0x7E, 0x01, 0x7E])
        (wellFormedFrame CRC16_rfc1549 0x05 0x10 (List.replicate 251 0x01))).pBufPtr = 0 := by
  have h := feed_wellFormedFrame_wrap ⟨300, 0x05⟩
    (feed ⟨300, 0x05⟩ exampleState [0x7E, 0x01, 0x7E]) 0x05 0x10 (List.replicate 251 0x01)
    (by decide) (by decide) (by rw [List.length_replicate]; decide) (by decide)
  rw [h]
  exact ⟨by decide, by decide, rfl, rfl⟩

/-- C15 (transmit sequence counter): for every state with txSeqNum in 0..7, one
sendPacket makes txSeqNum equal to (old txSeqNum + 1) mod 8; hence after any sequence
of calls of the public operations txSeqNum is still in 0..7, and after any sequence of
calls that transmits 8 frames it has its old value again; and from any state whatever,
no sequence of calls changes rxNextSeqNum. -/
theorem C15_tx_sequence_counter {E : CRCTYPE} (cfg : Config) (st : State E) :
    (st.txSeqNum ≤ 7 →
      (∀ (command : Nat) (buf : List Nat),
          (sendPacket cfg st command buf).txSeqNum = (st.txSeqNum + 1) % 8) ∧
        (∀ cs : List Call, (run cfg st cs).txSeqNum ≤ 7) ∧
        (∀ cs : List Call, framesSent cs = 8 →
          (run cfg st cs).txSeqNum = st.txSeqNum)) ∧
      (∀ cs : List Call, (run cfg st cs).rxNextSeqNum = st.rxNextSeqNum) := by
  refine ⟨fun h => ⟨?_, ?_, ?_⟩, fun cs => run_rxNextSeqNum cfg cs st⟩
  · intro command buf
    rw [sendPacket_eq]
    exact txSeqNum_step st.txSeqNum
  · intro cs
    rw [run_txSeqNum cfg cs st h]
    omega
  · intro cs h8
    rw [run_txSeqNum cfg cs st h, h8]
    omega

/-- Witness of C15: from the initial state, txSeqNum = 0, one frame gives 1, and eight
frames with received bytes in between give 0 again. -/
theorem C15_tx_sequence_counter_witness :
    (sendPacket exampleConfig exampleState 0x10 [0x01]).txSeqNum = (0 + 1) % 8 ∧
      (run exampleConfig exampleState
        [Call.sendPacket 0x10 [], Call.sendPacket 0x10 [], Call.processData 0x7E,
          Call.sendPacket 0x10 [], Call.sendCommandPacket 0x10 [], Call.sendPacket 0x10 [],
          Call.sendPacket 0x10 [], Call.processData 0x01, Call.sendPacket 0x10 [],
          Call.sendPacket 0x10 []]).txSeqNum = 0 :=
  ⟨((C15_tx_sequence_counter exampleConfig exampleState).1 (by decide)).1 0x10 [0x01],
    ((C15_tx_sequence_counter exampleConfig exampleState).1 (by decide)).2.2 _ rfl⟩

/-- Counterexample to C16 as stated: a receiver that has taken in 7E 05 03 is InFrame
with index 2; a sendPacket at that point sets the index to 0, and the rest of the
well-formed frame, 10 01 02 B1 73 7E, is then not dispatched, whereas without the
sendPacket it is. -/
theorem C16_counterexample :
    (feed exampleConfig exampleState [0x7E, 0x05, 0x03]).pBufPtr = 2 ∧
      (sendPacket exampleConfig (feed exampleConfig exampleState [0x7E, 0x05, 0x03])
        0x10 []).pBufPtr = 0 ∧
      (feed exampleConfig
        (sendPacket exampleConfig (feed exampleConfig exampleState [0x7E, 0x05, 0x03])
          0x10 [])
        [0x10, 0x01, 0x02, 0xB1, 0x73, 0x7E]).handled = [] ∧
      (feed exampleConfig (feed exampleConfig exampleState [0x7E, 0x05, 0x03])
        [0x10, 0x01, 0x02, 0xB1, 0x73, 0x7E]).handled = [([0x10, 0x01, 0x02], 3)] := by
  decide

/-- C16 (transmitting and reception), amended: for every state, sendPacket leaves the
receive buffer contents, the pending-unescape flag and the frame-state flag unchanged
and sets the receive buffer index to 0; apart from the index it changes only the
outgoing CRC accumulator, txSeqNum and the transport output. -/
theorem C16_send_resets_index_only {E : CRCTYPE} (cfg : Config) (st : State E)
    (command : Nat) (buf : List Nat) :
    (sendPacket cfg st command buf).pBuf = st.pBuf ∧
      (sendPacket cfg st command buf).unEscaping = st.unEscaping ∧
      (sendPacket cfg st command buf).inPacket = st.inPacket ∧
      (sendPacket cfg st command buf).pBufPtr = 0 ∧
      sendPacket cfg st command buf =
        { st with pBufPtr := 0,
                  outcrc := (sendPacket cfg st command buf).outcrc,
                  txSeqNum := (sendPacket cfg st command buf).txSeqNum,
                  serial := (sendPacket cfg st command buf).serial } := by
  rw [sendPacket_eq]
  exact ⟨rfl, rfl, rfl, rfl, rfl⟩

/-- C17 (the two public send entry points are equivalent): for every state, command
and payload, sendCommandPacket and sendPacket leave the same state, and so the same
bytes written to the transport. -/
theorem C17_send_entry_points_equal {E : CRCTYPE} (cfg : Config) (st : State E)
    (command : Nat) (buf : List Nat) :
    sendCommandPacket cfg st command buf = sendPacket cfg st command buf ∧
      (sendCommandPacket cfg st command buf).serial =
        (sendPacket cfg st command buf).serial := by
  unfold sendCommandPacket sendPacket
  exact ⟨rfl, rfl⟩

/-- C18 (boundary byte while InFrame with an empty buffer), evaluated on the code: with
maxPacketSize = 300, three boundary bytes fed to the Idle initial receiver, followed by
the body and the closing boundary byte of the well-formed frame of command 0x10 with a
payload of 251 bytes 01 (256 unescaped bytes, which fit the buffer), dispatch nothing
and leave the receiver InFrame with index 0. -/
theorem C18_frame_of_256_bytes_after_boundaries_lost :
    (feed ⟨300, 0x05⟩ exampleState
        (List.replicate 3 0x7E ++
          (wellFormedFrame CRC16_rfc1549 0x05 0x10 (List.replicate 251 0x01)).tail)).handled =
        [] ∧
      (feed ⟨300, 0x05⟩ exampleState
        (List.replicate 3 0x7E ++
          (wellFormedFrame CRC16_rfc1549 0x05 0x10
            (List.replicate 251 0x01)).tail)).inPacket = true ∧
      (feed ⟨300, 0x05⟩ exampleState
        (List.replicate 3 0x7E ++
          (wellFormedFrame CRC16_rfc1549 0x05 0x10
            (List.replicate 251 0x01)).tail)).pBufPtr = 0 := by
  have hw : 0x7E :: (wellFormedFrame CRC16_rfc1549 0x05 0x10 (List.replicate 251 0x01)).tail =
      wellFormedFrame CRC16_rfc1549 0x05 0x10 (List.replicate 251 0x01) := by
    simp [wellFormedFrame]
  have h := feed_wellFormedFrame_wrap ⟨300, 0x05⟩ exampleState 0x05 0x10
    (List.replicate 251 0x01) rfl rfl (by rw [List.length_replicate]; decide) (by decide)
  rw [feed_boundaries_then ⟨300, 0x05⟩ 2 exampleState _ rfl rfl, hw, h]
  exact ⟨rfl, rfl, rfl⟩

/-- C19 (byte-level decode undoes encode), evaluated on the code: under forced escaping
sendByte writes the byte 0x5D as 7D 7D; a receiver that is InFrame with index 0, no
pending unescape and capacity 16 takes these two bytes in without storing anything:
the index stays 0, position 0 of the buffer keeps its value and the pending-unescape
flag is left set. -/
theorem C19_forced_escape_of_5D_lost :
    wireBytes (sendByte (setForceEscape exampleState true) 0x5D).serial = [0x7D, 0x7D] ∧
      (feed exampleConfig exampleState [0x7E]).unEscaping = false ∧
      (feed exampleConfig (feed exampleConfig exampleState [0x7E])
        (wireBytes (sendByte (setForceEscape exampleState true) 0x5D).serial)).pBufPtr = 0 ∧
      (feed exampleConfig (feed exampleConfig exampleState [0x7E])
        (wireBytes (sendByte (setForceEscape exampleState true) 0x5D).serial)).pBuf 0 = 0 ∧
      (feed exampleConfig (feed exampleConfig exampleState [0x7E])
        (wireBytes (sendByte (setForceEscape exampleState true) 0x5D).serial)).unEscaping =
        true := by
  decide

/-- C20 (raw buffer view after a dispatch), evaluated on the code: after the
well-formed frame 7E 05 03 10 01 02 B1 73 7E, with N = 7 buffered bytes, the handler
was given buf[2 .. 5) = 10 01 02, and getRawBuffer returns offset 3 and size 3, the
region buf[3 .. 6) = 01 02 B1, whose last byte is the low CRC byte buf[5]. -/
theorem C20_raw_buffer_reaches_crc :
    (feed exampleConfig exampleState
        [0x7E, 0x05, 0x03, 0x10, 0x01, 0x02, 0xB1, 0x73, 0x7E]).handled =
        [([0x10, 0x01, 0x02], 3)] ∧
      getRawBuffer exampleConfig (feed exampleConfig exampleState
        [0x7E, 0x05, 0x03, 0x10, 0x01, 0x02, 0xB1, 0x73, 0x7E]) =
        { buffer := 3, size := 3 } ∧
      bufBytes (feed exampleConfig exampleState
        [0x7E, 0x05, 0x03, 0x10, 0x01, 0x02, 0xB1, 0x73, 0x7E]).pBuf 3 3 =
        [0x01, 0x02, 0xB1] ∧
      (feed exampleConfig exampleState
        [0x7E, 0x05, 0x03, 0x10, 0x01, 0x02, 0xB1, 0x73, 0x7E]).pBuf 5 = 0xB1 := by
  decide

end SerProHDLC
